import Mathlib

/-!
# Journal Entry Normalization & Property-Attribution Engine: verification

Shallow embedding of the core of `main.py` (QuickBooks journal-entry
normalization, property-code detection, aggregation, filtering and the
property-mapping query composer), together with proofs and refutations of
the specification claims.

Conventions of the embedding:
* Python values flowing through `dict`-shaped data are modelled by `Json`.
* Python `float` amounts are modelled exactly by `ℚ` (the aggregation logic
  under verification is about which amounts are summed, not about rounding).
* Code that can raise (`.get` on a non-dict, `float()` on a bad value,
  iterating a non-list) is modelled in `Except String`.
-/

set_option maxRecDepth 4000

/-- Python truthiness / JSON-ish runtime values (the shape of the dicts the
    QuickBooks API layer hands to the normalizer). -/
inductive Json where
  | null : Json
  | bool : Bool → Json
  | num : ℚ → Json
  | str : String → Json
  | arr : List Json → Json
  | obj : List (String × Json) → Json

mutual

/-- Decidable equality for `Json` (the derive handler does not support this
    nested inductive). -/
def jsonDecEq : (a b : Json) → Decidable (a = b)
  | .null, .null => .isTrue rfl
  | .bool x, .bool y =>
    match decEq x y with
    | .isTrue h => .isTrue (by rw [h])
    | .isFalse h => .isFalse (by intro he; cases he; exact h rfl)
  | .num x, .num y =>
    match decEq x y with
    | .isTrue h => .isTrue (by rw [h])
    | .isFalse h => .isFalse (by intro he; cases he; exact h rfl)
  | .str x, .str y =>
    match decEq x y with
    | .isTrue h => .isTrue (by rw [h])
    | .isFalse h => .isFalse (by intro he; cases he; exact h rfl)
  | .arr x, .arr y =>
    match jsonListDecEq x y with
    | .isTrue h => .isTrue (by rw [h])
    | .isFalse h => .isFalse (by intro he; cases he; exact h rfl)
  | .obj x, .obj y =>
    match jsonObjDecEq x y with
    | .isTrue h => .isTrue (by rw [h])
    | .isFalse h => .isFalse (by intro he; cases he; exact h rfl)
  | .null, .bool _ => .isFalse (by intro h; cases h)
  | .null, .num _ => .isFalse (by intro h; cases h)
  | .null, .str _ => .isFalse (by intro h; cases h)
  | .null, .arr _ => .isFalse (by intro h; cases h)
  | .null, .obj _ => .isFalse (by intro h; cases h)
  | .bool _, .null => .isFalse (by intro h; cases h)
  | .bool _, .num _ => .isFalse (by intro h; cases h)
  | .bool _, .str _ => .isFalse (by intro h; cases h)
  | .bool _, .arr _ => .isFalse (by intro h; cases h)
  | .bool _, .obj _ => .isFalse (by intro h; cases h)
  | .num _, .null => .isFalse (by intro h; cases h)
  | .num _, .bool _ => .isFalse (by intro h; cases h)
  | .num _, .str _ => .isFalse (by intro h; cases h)
  | .num _, .arr _ => .isFalse (by intro h; cases h)
  | .num _, .obj _ => .isFalse (by intro h; cases h)
  | .str _, .null => .isFalse (by intro h; cases h)
  | .str _, .bool _ => .isFalse (by intro h; cases h)
  | .str _, .num _ => .isFalse (by intro h; cases h)
  | .str _, .arr _ => .isFalse (by intro h; cases h)
  | .str _, .obj _ => .isFalse (by intro h; cases h)
  | .arr _, .null => .isFalse (by intro h; cases h)
  | .arr _, .bool _ => .isFalse (by intro h; cases h)
  | .arr _, .num _ => .isFalse (by intro h; cases h)
  | .arr _, .str _ => .isFalse (by intro h; cases h)
  | .arr _, .obj _ => .isFalse (by intro h; cases h)
  | .obj _, .null => .isFalse (by intro h; cases h)
  | .obj _, .bool _ => .isFalse (by intro h; cases h)
  | .obj _, .num _ => .isFalse (by intro h; cases h)
  | .obj _, .str _ => .isFalse (by intro h; cases h)
  | .obj _, .arr _ => .isFalse (by intro h; cases h)

/-- Decidable equality for lists of `Json`. -/
def jsonListDecEq : (a b : List Json) → Decidable (a = b)
  | [], [] => .isTrue rfl
  | [], _ :: _ => .isFalse (by intro h; cases h)
  | _ :: _, [] => .isFalse (by intro h; cases h)
  | a :: as, b :: bs =>
    match jsonDecEq a b with
    | .isTrue h1 =>
      match jsonListDecEq as bs with
      | .isTrue h2 => .isTrue (by rw [h1, h2])
      | .isFalse h2 => .isFalse (by intro he; injection he with e1 e2; exact h2 e2)
    | .isFalse h1 => .isFalse (by intro he; injection he with e1 e2; exact h1 e1)

/-- Decidable equality for string-keyed `Json` association lists. -/
def jsonObjDecEq : (a b : List (String × Json)) → Decidable (a = b)
  | [], [] => .isTrue rfl
  | [], _ :: _ => .isFalse (by intro h; cases h)
  | _ :: _, [] => .isFalse (by intro h; cases h)
  | (ka, va) :: as, (kb, vb) :: bs =>
    match decEq ka kb with
    | .isTrue hk =>
      match jsonDecEq va vb with
      | .isTrue hv =>
        match jsonObjDecEq as bs with
        | .isTrue h2 => .isTrue (by rw [hk, hv, h2])
        | .isFalse h2 => .isFalse (by intro he; injection he with e1 e2; exact h2 e2)
      | .isFalse hv => .isFalse (by
          intro he; injection he with e1 e2
          exact hv (congrArg Prod.snd e1))
    | .isFalse hk => .isFalse (by
        intro he; injection he with e1 e2
        exact hk (congrArg Prod.fst e1))

end

instance : DecidableEq Json := jsonDecEq

/-- Python truthiness (`if x:`) for `Json` values. -/
def pyTruthy : Json → Bool
  | .null => false
  | .bool b => b
  | .num q => q ≠ 0
  | .str s => s ≠ ""
  | .arr l => !l.isEmpty
  | .obj l => !l.isEmpty

/-- `d.get(k, default)`: succeeds only on dicts, as in Python
    (`AttributeError` otherwise). A present key wins even if its value is
    `null`. -/
def pyGet (j : Json) (k : String) (dflt : Json) : Except String Json :=
  match j with
  | .obj kvs => .ok ((kvs.lookup k).getD dflt)
  | _ => .error ("AttributeError: 'get' on non-dict value")

/-- Iterating a value as a list of journal-entry lines. -/
def asList : Json → Except String (List Json)
  | .arr l => .ok l
  | _ => .error "TypeError: value is not iterable as a list"

/-- Digits of a decimal string, most significant first. -/
def decDigitsVal (l : List Char) : Nat :=
  l.foldl (fun acc c => acc * 10 + (c.toNat - '0'.toNat)) 0

/-- Parse of `float(<string>)` on plain decimal literals
    (optional sign, integer part, optional fractional part). -/
def parseDecimal (s : String) : Option ℚ :=
  let l := (s.toList.dropWhile (· = ' ')).reverse.dropWhile (· = ' ') |>.reverse
  let (sign, l) : ℚ × List Char :=
    match l with
    | '-' :: rest => (-1, rest)
    | '+' :: rest => (1, rest)
    | _ => (1, l)
  let intPart := l.takeWhile Char.isDigit
  let rest := l.dropWhile Char.isDigit
  match rest with
  | [] =>
    if intPart.isEmpty then none
    else some (sign * (decDigitsVal intPart : ℚ))
  | '.' :: frac =>
    if frac.all Char.isDigit ∧ !(intPart.isEmpty ∧ frac.isEmpty) then
      some (sign * ((decDigitsVal intPart : ℚ) +
        (decDigitsVal frac : ℚ) / ((10 : ℚ) ^ frac.length)))
    else none
  | _ => none

/-- Python `float(x)` over the `Json` model. -/
def pyFloat : Json → Except String ℚ
  | .null => .error "TypeError: float() argument must not be None"
  | .bool b => .ok (if b then 1 else 0)
  | .num q => .ok q
  | .str s =>
    match parseDecimal s with
    | some q => .ok q
    | none => .error ("ValueError: could not convert string to float: " ++ s)
  | .arr _ => .error "TypeError: float() argument cannot be a list"
  | .obj _ => .error "TypeError: float() argument cannot be a dict"

/-- Python whitespace (the class `str.strip` and `\s` strip over). -/
def isPySpace (c : Char) : Bool :=
  c = ' ' ∨ c = '\t' ∨ c = '\n' ∨ c = '\r' ∨ c = Char.ofNat 11 ∨ c = Char.ofNat 12

/-- `str.strip()` on a character list. -/
def pyStrip (l : List Char) : List Char :=
  ((l.dropWhile isPySpace).reverse.dropWhile isPySpace).reverse

/-- `str.strip()`. -/
def pyStripStr (s : String) : String :=
  String.mk (pyStrip s.toList)

/-- ASCII uppercasing of one character (`str.upper` on the data seen here). -/
def pyUpperChar (c : Char) : Char :=
  if 'a' ≤ c ∧ c ≤ 'z' then Char.ofNat (c.toNat - 32) else c

/-- `str.upper()`. -/
def pyUpperStr (s : String) : String :=
  String.mk (s.toList.map pyUpperChar)

/-- Stringification used by f-string interpolation; the exact rendering of
    non-string scalars is abstracted (amounts are already abstracted to `ℚ`). -/
def pyStr : Json → String
  | .null => "None"
  | .bool b => if b then "True" else "False"
  | .num q => toString q
  | .str s => s
  | .arr _ => "[...]"
  | .obj _ => "{...}"

/-- Python `needle in hay` on strings: contiguous-substring test. -/
def listIsInfix (needle hay : List Char) : Bool :=
  match hay with
  | [] => needle.isEmpty
  | _ :: rest => needle.isPrefixOf hay || listIsInfix needle rest

/-- Python `needle in hay` on strings. -/
def strContains (hay needle : String) : Bool :=
  listIsInfix needle.toList hay.toList

/-!
## Regex engine

`extract_property_from_text` in the source applies eight `re.findall`
patterns.  We embed the fragment of Python regular expressions those
patterns use: literal alternatives, character classes, greedy `*`/`+`, and a
single capturing group, with Python's backtracking priority order (leftmost
match; alternatives tried left to right; greedy quantifiers prefer longer
matches; `findall` scans left to right, non-overlapping).
-/

/-- Regular-expression fragment used by the property patterns. -/
inductive RE where
  | lit : String → RE
  | cls : (Char → Bool) → RE
  | seq : RE → RE → RE
  | alt : RE → RE → RE
  | star : RE → RE
  | group : RE → RE

/-- `r+` as `r r*`. -/
def rePlus (r : RE) : RE := .seq r (.star r)

/-- All ways a pattern can match a prefix of the input, in Python's
    backtracking priority order.  Each result is the remaining suffix
    together with the contents of the capturing group (if one matched).
    The `star` case is delegated to the fuel layer (`reRuns` below), which
    bounds its iteration count; since every `star` in the property patterns
    has a body consuming at least one character, `s.length + 1` fuel is
    never exhausted on them. -/
def reRunsGo (runsStar : RE → List Char → Option (List Char) →
    List (List Char × Option (List Char))) :
    RE → List Char → Option (List Char) → List (List Char × Option (List Char))
  | .lit w, s, cap =>
    if w.toList.isPrefixOf s then [(s.drop w.length, cap)] else []
  | .cls p, s, cap =>
    match s with
    | [] => []
    | c :: rest => if p c then [(rest, cap)] else []
  | .seq a b, s, cap =>
    ((reRunsGo runsStar a s cap).map (fun r => reRunsGo runsStar b r.1 r.2)).flatten
  | .alt a b, s, cap => reRunsGo runsStar a s cap ++ reRunsGo runsStar b s cap
  | .star a, s, cap => runsStar a s cap
  | .group a, s, cap =>
    (reRunsGo runsStar a s cap).map (fun r => (r.1, some (s.take (s.length - r.1.length))))

/-- The fuel layer: each additional unit of fuel allows one more iteration
    of a `star` (greedy: longer iterations are tried first, then the empty
    iteration). -/
def reRuns : Nat → RE → List Char → Option (List Char) →
    List (List Char × Option (List Char))
  | 0, r, s, cap => reRunsGo (fun _ _ _ => []) r s cap
  | fuel + 1, r, s, cap =>
    reRunsGo (fun a s cap =>
      ((reRuns fuel a s cap).map (fun p =>
        if p.1.length < s.length then reRuns fuel (.star a) p.1 p.2 else [])).flatten
      ++ [(s, cap)]) r s cap

/-- Highest-priority match of `r` at the start of `s` (Python semantics). -/
def reMatchAt (r : RE) (s : List Char) : Option (List Char × Option (List Char)) :=
  (reRuns (s.length + 1) r s none).head?

/-- Scan for non-overlapping matches left to right, returning the captured
    group of each match (Python `re.findall` with one group). -/
def reScan (r : RE) : Nat → List Char → List (Option (List Char))
  | 0, _ => []
  | fuel + 1, s =>
    match reMatchAt r s with
    | some pr =>
      pr.2 :: (if pr.1.length < s.length then reScan r fuel pr.1
               else if s.isEmpty then [] else reScan r fuel s.tail)
    | none => if s.isEmpty then [] else reScan r fuel s.tail

/-- `re.findall(pattern, text)` for a pattern with one capturing group. -/
def reFindAll (r : RE) (t : String) : List String :=
  (reScan r (t.toList.length + 1) t.toList).map (fun c => String.mk (c.getD []))

/-! ### The eight property patterns (in source priority order) -/

/-- `\d` -/
def isDigitChar (c : Char) : Bool := '0' ≤ c ∧ c ≤ '9'

/-- `[A-Z]` -/
def isUpperAZ (c : Char) : Bool := 'A' ≤ c ∧ c ≤ 'Z'

/-- `[\s\-_#]` -/
def isSepChar (c : Char) : Bool := isPySpace c ∨ c = '-' ∨ c = '_' ∨ c = '#'

/-- `[A-Z0-9\-_]` -/
def isCodeChar (c : Char) : Bool := isUpperAZ c ∨ isDigitChar c ∨ c = '-' ∨ c = '_'

/-- `[\s\-]` -/
def isStreetSep (c : Char) : Bool := isPySpace c ∨ c = '-'

/-- `\w` -/
def isWordChar (c : Char) : Bool :=
  isUpperAZ c ∨ ('a' ≤ c ∧ c ≤ 'z') ∨ isDigitChar c ∨ c = '_'

/-- `(?:w₁|w₂|…)`, alternatives tried left to right as in Python. -/
def altStrs (w : String) (ws : List String) : RE :=
  ws.foldl (fun acc w' => .alt acc (.lit w')) (.lit w)

/-- `(?:KEYWORDS)[\s\-_#]*([A-Z0-9\-_]+)` — shared shape of patterns 1–5. -/
def markerPattern (kws : RE) : RE :=
  .seq kws (.seq (.star (.cls isSepChar)) (.group (rePlus (.cls isCodeChar))))

/-- `(?:PROPERTY|PROP)[\s\-_#]*([A-Z0-9\-_]+)` -/
def rePat1 : RE := markerPattern (altStrs "PROPERTY" ["PROP"])

/-- `(?:UNIT|APT|APARTMENT)[\s\-_#]*([A-Z0-9\-_]+)` -/
def rePat2 : RE := markerPattern (altStrs "UNIT" ["APT", "APARTMENT"])

/-- `(?:BUILDING|BLDG|BLD)[\s\-_#]*([A-Z0-9\-_]+)` -/
def rePat3 : RE := markerPattern (altStrs "BUILDING" ["BLDG", "BLD"])

/-- `(?:LOCATION|LOC)[\s\-_#]*([A-Z0-9\-_]+)` -/
def rePat4 : RE := markerPattern (altStrs "LOCATION" ["LOC"])

/-- `(?:SITE|COMPLEX)[\s\-_#]*([A-Z0-9\-_]+)` -/
def rePat5 : RE := markerPattern (altStrs "SITE" ["COMPLEX"])

/-- `(?:ST|STREET|AVE|AVENUE|RD|ROAD|BLVD|BOULEVARD|DR|DRIVE|LN|LANE|WAY|PL|PLACE)` -/
def streetSuffix : RE :=
  altStrs "ST" ["STREET", "AVE", "AVENUE", "RD", "ROAD", "BLVD", "BOULEVARD",
    "DR", "DRIVE", "LN", "LANE", "WAY", "PL", "PLACE"]

/-- `(\d+[\s\-]*[A-Z]*[\s\-]*\w+[\s\-]*(?:ST|STREET|…))` -/
def rePat6 : RE :=
  .group (.seq (rePlus (.cls isDigitChar))
    (.seq (.star (.cls isStreetSep))
      (.seq (.star (.cls isUpperAZ))
        (.seq (.star (.cls isStreetSep))
          (.seq (rePlus (.cls isWordChar))
            (.seq (.star (.cls isStreetSep)) streetSuffix))))))

/-- `([A-Z]\d+[A-Z]*)` -/
def rePat7 : RE :=
  .group (.seq (.cls isUpperAZ) (.seq (rePlus (.cls isDigitChar)) (.star (.cls isUpperAZ))))

/-- `(\d+[A-Z]+)` -/
def rePat8 : RE :=
  .group (.seq (rePlus (.cls isDigitChar)) (rePlus (.cls isUpperAZ)))

/-- The ordered pattern list of `extract_property_from_text`. -/
def propertyPatterns : List RE :=
  [rePat1, rePat2, rePat3, rePat4, rePat5, rePat6, rePat7, rePat8]

/-- The inner loop of `extract_property_from_text`: first match whose
    stripped text has length ≥ 1, stripped. -/
def firstMeaningfulMatch (ms : List String) : Option String :=
  (ms.find? (fun m => 1 ≤ (pyStripStr m).length)).map pyStripStr

/-- `text.strip().upper()` as performed by `extract_property_from_text`. -/
def normPropText (t : String) : String := pyUpperStr (pyStripStr t)

/-- The pattern loop of `extract_property_from_text`: try each pattern in
    order; the first pattern yielding a meaningful match returns it. -/
def extractFromPatterns : List RE → String → Option String
  | [], _ => none
  | p :: ps, txt =>
    match firstMeaningfulMatch (reFindAll p txt) with
    | some c => some c
    | none => extractFromPatterns ps txt

/-- `extract_property_from_text(text)` from the source. -/
def extract_property_from_text (t : String) : Option String :=
  if t = "" then none
  else extractFromPatterns propertyPatterns (normPropText t)

/-- Keyword list of `find_property_indicators`. -/
def propertyKeywords : List String :=
  ["PROPERTY", "PROP", "UNIT", "APT", "APARTMENT", "BUILDING", "BLDG",
   "LOCATION", "LOC", "SITE", "COMPLEX", "RENTAL", "LEASE", "TENANT",
   "STREET", "ST", "AVENUE", "AVE", "ROAD", "RD", "DRIVE", "DR"]

/-- `find_property_indicators(text)` from the source (the `list(set(…))`
    at the end is modelled keeping keyword order; the keyword list has no
    duplicates). -/
def find_property_indicators (t : String) : List String :=
  if t = "" then []
  else propertyKeywords.filter (fun k => strContains (pyUpperStr t) k)

/-!
## Reference extractor, line & entry normalizer
-/

/-- Result shape of `extract_ref_data`. -/
structure RefData where
  value : Json
  name : Json
  type : Json
  deriving DecidableEq

/-- `extract_ref_data(ref_obj)` from the source: `None` for falsy input,
    otherwise `.get` each of the three keys (which raises on a truthy
    non-dict). -/
def extract_ref_data (ref : Json) : Except String (Option RefData) :=
  if pyTruthy ref then do
    let v ← pyGet ref "value" .null
    let n ← pyGet ref "name" .null
    let t ← pyGet ref "type" .null
    .ok (some ⟨v, n, t⟩)
  else .ok none

/-- `line_item['vendor_name'] or ''` followed by f-string interpolation. -/
def jOrEmpty (v : Json) : String :=
  if pyTruthy v then pyStr v else ""

/-- The fields of a processed line item that the verified claims touch
    (fields of the source dict not used by any claim are omitted). -/
structure LineItem where
  line_index : Nat
  line_id : Json
  line_num : Json
  description : String
  detail_type : Json
  amount : ℚ
  posting_type : Json
  debit_amount : ℚ
  credit_amount : ℚ
  account_name : Json
  vendor_name : Json
  customer_name : Json
  employee_name : Json
  class_name : Json
  location_name : Json
  department_name : Json
  item_name : Json
  property_code_detected : Option String
  property_indicators : List String
  deriving DecidableEq

/-- `Entity`-typed name lookup used for vendor/customer/employee fields:
    `je.get('Entity', {}).get('EntityRef', {}).get('name') if
    je.get('Entity', {}).get('Type') == T else None`. -/
def entityNameOfType (entity : Json) (entityType : Json) (t : String) :
    Except String Json :=
  if entityType = .str t then do
    let er ← pyGet entity "EntityRef" (.obj [])
    pyGet er "name" .null
  else .ok .null

/-- `extract_all_line_fields(line, line_index, parent_entry)` (the parent
    entry contributes only its memo to the searchable text). -/
def extract_all_line_fields (line : Json) (idx : Nat) (memo : String) :
    Except String LineItem := do
  let je ← pyGet line "JournalEntryLineDetail" (.obj [])
  let lineId ← pyGet line "Id" (.str (toString idx))
  let lineNum ← pyGet line "LineNum" (.num (idx + 1))
  let descJ ← pyGet line "Description" (.str "")
  let detailType ← pyGet line "DetailType" (.str "JournalEntryLineDetail")
  let amount ← pyFloat (← pyGet je "Amount" (.num 0))
  let postingStored ← pyGet je "PostingType" (.str "")
  let postingRaw ← pyGet je "PostingType" .null
  let accountRef ← pyGet je "AccountRef" (.obj [])
  let accountName ← pyGet accountRef "name" .null
  let entity ← pyGet je "Entity" (.obj [])
  let entityType ← pyGet entity "Type" .null
  let vendorName ← entityNameOfType entity entityType "Vendor"
  let customerName ← entityNameOfType entity entityType "Customer"
  let employeeName ← entityNameOfType entity entityType "Employee"
  let classRef ← pyGet je "ClassRef" (.obj [])
  let className ← pyGet classRef "name" .null
  let locationRef ← pyGet je "LocationRef" (.obj [])
  let locationName ← pyGet locationRef "name" .null
  let departmentRef ← pyGet je "DepartmentRef" (.obj [])
  let departmentName ← pyGet departmentRef "name" .null
  let itemRef ← pyGet je "ItemRef" (.obj [])
  let itemName ← pyGet itemRef "name" .null
  let description := pyStr descJ
  let allText := description ++ " " ++ memo ++ " " ++ jOrEmpty vendorName ++ " " ++
    jOrEmpty customerName ++ " " ++ jOrEmpty locationName ++ " " ++ jOrEmpty className
  .ok {
    line_index := idx
    line_id := lineId
    line_num := lineNum
    description := description
    detail_type := detailType
    amount := amount
    posting_type := postingStored
    debit_amount := if postingRaw = .str "Debit" then amount else 0
    credit_amount := if postingRaw = .str "Credit" then amount else 0
    account_name := accountName
    vendor_name := vendorName
    customer_name := customerName
    employee_name := employeeName
    class_name := className
    location_name := locationName
    department_name := departmentName
    item_name := itemName
    property_code_detected := extract_property_from_text allText
    property_indicators := find_property_indicators allText }

/-- `for line_index, line in enumerate(lines): extract_all_line_fields(…)`. -/
def extractLines : List Json → Nat → String → Except String (List LineItem)
  | [], _, _ => .ok []
  | l :: rest, idx, memo => do
    let li ← extract_all_line_fields l idx memo
    let lis ← extractLines rest (idx + 1) memo
    .ok (li :: lis)

/-- Per-entry property summary (`analyze_entry_properties` output). -/
structure EntryPropertyAnalysis where
  property_count : Nat
  has_location_tracking : Bool
  has_class_tracking : Bool
  has_customer_tracking : Bool
  has_vendor_tracking : Bool
  property_tracking_method : String
  deriving DecidableEq

/-- The fields of a processed journal entry that the verified claims touch. -/
structure Entry where
  id : Json
  sync_token : Json
  transaction_date : Json
  doc_number : Json
  memo : String
  adjustment : Json
  total_amount : ℚ
  exchange_rate : Json
  total_debits : ℚ
  total_credits : ℚ
  line_count : Nat
  line_items : List LineItem
  accounts_affected : List Json
  vendors_mentioned : List Json
  customers_mentioned : List Json
  employees_mentioned : List Json
  locations_mentioned : List Json
  classes_mentioned : List Json
  departments_mentioned : List Json
  items_mentioned : List Json
  property_codes_detected : List String
  property_analysis : EntryPropertyAnalysis
  deriving DecidableEq

/-- `determine_primary_tracking_method(entry)` from the source. -/
def determine_primary_tracking_method (e : Entry) : String :=
  if e.locations_mentioned ≠ [] then "locations"
  else if e.classes_mentioned ≠ [] then "classes"
  else if e.customers_mentioned ≠ [] then "customers"
  else if e.property_codes_detected ≠ [] then "memo_based"
  else "none"

/-- `analyze_entry_properties(entry)` from the source. -/
def analyze_entry_properties (e : Entry) : EntryPropertyAnalysis :=
  { property_count := e.property_codes_detected.length
    has_location_tracking := e.locations_mentioned.length > 0
    has_class_tracking := e.classes_mentioned.length > 0
    has_customer_tracking := e.customers_mentioned.length > 0
    has_vendor_tracking := e.vendors_mentioned.length > 0
    property_tracking_method := determine_primary_tracking_method e }

/-- `if value and value not in collected: collected.append(value)`. -/
def addIfTruthyNew (l : List Json) (v : Json) : List Json :=
  if pyTruthy v ∧ v ∉ l then l ++ [v] else l

/-- Same, for the detected property code (an `Option String`). -/
def addCodeIfNew (l : List String) (c : Option String) : List String :=
  match c with
  | some s => if s ≠ "" ∧ s ∉ l then l ++ [s] else l
  | none => l

/-- One iteration of the per-line accumulation loop in
    `extract_all_journal_entry_fields`. -/
def entryStep (acc : Entry) (it : LineItem) : Entry :=
  { acc with
    line_items := acc.line_items ++ [it]
    total_debits := acc.total_debits + it.debit_amount
    total_credits := acc.total_credits + it.credit_amount
    line_count := acc.line_count + 1
    accounts_affected := addIfTruthyNew acc.accounts_affected it.account_name
    vendors_mentioned := addIfTruthyNew acc.vendors_mentioned it.vendor_name
    customers_mentioned := addIfTruthyNew acc.customers_mentioned it.customer_name
    employees_mentioned := addIfTruthyNew acc.employees_mentioned it.employee_name
    locations_mentioned := addIfTruthyNew acc.locations_mentioned it.location_name
    classes_mentioned := addIfTruthyNew acc.classes_mentioned it.class_name
    departments_mentioned := addIfTruthyNew acc.departments_mentioned it.department_name
    items_mentioned := addIfTruthyNew acc.items_mentioned it.item_name
    property_codes_detected := addCodeIfNew acc.property_codes_detected it.property_code_detected }

/-- `extract_all_journal_entry_fields(entry)` from the source.  Header
    fields are read (with the source's defaults), every line is extracted
    in order, and totals / mention sets / detected codes are accumulated
    exactly as the source loop does. -/
def extract_all_journal_entry_fields (entry : Json) : Except String Entry := do
  let entryId ← pyGet entry "Id" .null
  let syncToken ← pyGet entry "SyncToken" .null
  let txnDate ← pyGet entry "TxnDate" .null
  let docNumber ← pyGet entry "DocNumber" (.str "")
  let privateNote ← pyGet entry "PrivateNote" (.str "")
  let adjustment ← pyGet entry "Adjustment" (.bool false)
  let totalAmount ← pyFloat (← pyGet entry "HomeTotalAmt" (.num 0))
  let exchangeRate ← pyGet entry "ExchangeRate" (.num 1)
  let memo := pyStr privateNote
  let rawLines ← asList (← pyGet entry "Line" (.arr []))
  let items ← extractLines rawLines 0 memo
  let base : Entry :=
    { id := entryId
      sync_token := syncToken
      transaction_date := txnDate
      doc_number := docNumber
      memo := memo
      adjustment := adjustment
      total_amount := totalAmount
      exchange_rate := exchangeRate
      total_debits := 0
      total_credits := 0
      line_count := 0
      line_items := []
      accounts_affected := []
      vendors_mentioned := []
      customers_mentioned := []
      employees_mentioned := []
      locations_mentioned := []
      classes_mentioned := []
      departments_mentioned := []
      items_mentioned := []
      property_codes_detected := []
      property_analysis :=
        ⟨0, false, false, false, false, "none"⟩ }
  let folded := items.foldl entryStep base
  .ok { folded with property_analysis := analyze_entry_properties folded }

/-- The processing loop of the `journal-entries` endpoint: each raw entry is
    processed in order; an exception from any entry propagates and aborts
    the whole request (there is no per-entry recovery in the source). -/
def process_journal_entries (entries : List Json) : Except String (List Entry) :=
  entries.mapM extract_all_journal_entry_fields

/-!
## Aggregation engine (account dimension) and by-property filter
-/

/-- One bucket of `analyze_accounts_in_entries`. -/
structure AccountBucket where
  entries : Nat
  total_debits : ℚ
  total_credits : ℚ
  deriving DecidableEq

/-- The inner loop of `analyze_accounts_in_entries`: walk the entry's lines
    and add the debit/credit of each line posting to this account. -/
def accountLineFold (a : Json) (b : AccountBucket) (lines : List LineItem) :
    AccountBucket :=
  lines.foldl
    (fun b l =>
      if l.account_name = a then
        { b with
          total_debits := b.total_debits + l.debit_amount
          total_credits := b.total_credits + l.credit_amount }
      else b)
    b

/-- The whole per-account update for one entry: bump the entry count, then
    fold this entry's lines. -/
def accountEntryUpdate (e : Entry) (a : Json) (b : AccountBucket) : AccountBucket :=
  accountLineFold a { b with entries := b.entries + 1 } e.line_items

/-- Python-dict update: insert a zero bucket at the end on first sight of a
    key (insertion order is preserved), then apply the update. -/
def assocBump (l : List (Json × AccountBucket)) (a : Json)
    (f : AccountBucket → AccountBucket) : List (Json × AccountBucket) :=
  match l with
  | [] => [(a, f ⟨0, 0, 0⟩)]
  | (k, v) :: rest => if k = a then (k, f v) :: rest else (k, v) :: assocBump rest a f

/-- `analyze_accounts_in_entries(entries)` from the source. -/
def analyze_accounts_in_entries (entries : List Entry) :
    List (Json × AccountBucket) :=
  entries.foldl
    (fun acc e =>
      e.accounts_affected.foldl (fun acc a => assocBump acc a (accountEntryUpdate e a)) acc)
    []

/-- Sum of `total_debits` over every account bucket. -/
def bucketDebitsSum (l : List (Json × AccountBucket)) : ℚ :=
  (l.map (fun kv => kv.2.total_debits)).sum

/-- Sum of `total_credits` over every account bucket. -/
def bucketCreditsSum (l : List (Json × AccountBucket)) : ℚ :=
  (l.map (fun kv => kv.2.total_credits)).sum

/-- Entry-granularity sum of all line debit amounts. -/
def entriesLineDebitsSum (entries : List Entry) : ℚ :=
  (entries.map (fun e => (e.line_items.map (fun l => l.debit_amount)).sum)).sum

/-- Entry-granularity sum of all line credit amounts. -/
def entriesLineCreditsSum (entries : List Entry) : ℚ :=
  (entries.map (fun e => (e.line_items.map (fun l => l.credit_amount)).sum)).sum

/-- The optional query parameters of the by-property endpoint. -/
structure PropertyFilters where
  property_code : Option String
  location_name : Option String
  class_name : Option String
  customer_name : Option String

/-- Python truthiness of an optional string parameter. -/
def optTruthy : Option String → Bool
  | none => false
  | some s => s ≠ ""

/-- The combined memo + line-description text the by-property endpoint
    searches for the property code. -/
def filterAllText (e : Entry) : String :=
  e.memo ++ " " ++ String.intercalate " " (e.line_items.map (fun l => l.description))

/-- The `include_entry` flag logic of `get_journal_entries_by_property`,
    mirroring the source's sequence of conditional assignments. -/
def includeEntry (pc loc cls cust : Option String) (e : Entry) : Bool :=
  let i0 := false
  let i1 := if optTruthy pc ∧ (pc.getD "") ∈ e.property_codes_detected then true else i0
  let i2 := if optTruthy loc ∧ (Json.str (loc.getD "")) ∈ e.locations_mentioned then true else i1
  let i3 := if optTruthy cls ∧ (Json.str (cls.getD "")) ∈ e.classes_mentioned then true else i2
  let i4 := if optTruthy cust ∧ (Json.str (cust.getD "")) ∈ e.customers_mentioned then true else i3
  if ¬(optTruthy pc ∨ optTruthy loc ∨ optTruthy cls ∨ optTruthy cust) then true
  else if optTruthy pc then
    if strContains (pyUpperStr (filterAllText e)) (pyUpperStr (pc.getD "")) then true else i4
  else i4

/-- The filtering loop of `get_journal_entries_by_property`. -/
def get_journal_entries_by_property (entries : List Entry) (f : PropertyFilters) :
    List Entry :=
  entries.filter (includeEntry f.property_code f.location_name f.class_name f.customer_name)

/-!
## Query composer (`/api/qb/property-mapping`)

The three reference-list fetches are external, fallible calls; the composer
is modelled as a function of their outcomes.  A successful call returns a
dict carrying a `success` flag, the item list and (only on the locations
in-band failure path) an `error_details` message; a raised exception is an
`Except.error`, which the composer's `try/except` converts to the degraded
`{"<key>": [], "success": False}` dict.
-/

/-- The fields of a reference-list fetch result that the composer reads. -/
structure SourceFetch where
  success : Bool
  items : List Json
  error_details : Option String
  deriving DecidableEq

/-- `{"<key>": [], "success": False}`: the dict substituted when a fetch
    raises. -/
def degradedFetch : SourceFetch := ⟨false, [], none⟩

/-- The `try: … except: …` around each fetch. -/
def resolveFetch : Except String SourceFetch → SourceFetch
  | .ok r => r
  | .error _ => degradedFetch

/-- One source block of the property-mapping response. -/
structure SourceView where
  available : Bool
  count : Nat
  items : List Json
  status : String
  error_message : String
  deriving DecidableEq

/-- Build one source block as the source does. -/
def mkSourceView (r : SourceFetch) (failStatus : String) : SourceView :=
  { available := r.success
    count := r.items.length
    items := r.items
    status := if r.success then "✅ Available" else failStatus
    error_message := if r.success then "" else r.error_details.getD "" }

/-- The property-mapping response fields the claims touch. -/
structure PropertyMapping where
  locations : SourceView
  classes : SourceView
  customers : SourceView
  total_potential_properties : Nat
  recommended_approach : String
  available_methods : List String
  setup_suggestions : List String
  deriving DecidableEq

/-- `get_property_mapping()` from the source, as a function of the three
    fetch outcomes. -/
def get_property_mapping (locR clsR custR : Except String SourceFetch) :
    PropertyMapping :=
  let lr := resolveFetch locR
  let cr := resolveFetch clsR
  let ur := resolveFetch custR
  let locations := mkSourceView lr "❌ Not enabled in this QB company"
  let classes := mkSourceView cr "❌ Not available"
  let customers := mkSourceView ur "❌ Not available"
  let totalL := locations.count
  let totalC := classes.count
  let totalU := customers.count
  let availableMethods :=
    (if locations.available then ["Locations"] else []) ++
    (if classes.available then ["Classes"] else []) ++
    (if customers.available then ["Customers"] else [])
  let recPair :=
    if totalL > 0 then
      ("Locations (Primary)", "✅ Use Locations for property tracking - ideal for real estate")
    else if totalC > 0 then
      ("Classes (Primary)", "✅ Use Classes for property/department tracking")
    else if totalU > 0 then
      ("Customers (Primary)", "✅ Use Customers for tenant or individual unit tracking")
    else
      ("Setup Required", "⚠️ No property identifiers found")
  let suggestions := [recPair.2] ++
    (if ¬locations.available then
      ["💡 To enable Locations: QB Settings → Company Settings → Advanced → Categories → Turn on Location tracking"]
    else []) ++
    (if ¬classes.available ∧ totalC = 0 then
      ["💡 To use Classes: QB Settings → Company Settings → Advanced → Categories → Turn on Class tracking"]
    else []) ++
    (if totalU = 0 then ["💡 Consider adding Customers for tenant/unit tracking"] else [])
  { locations := locations
    classes := classes
    customers := customers
    total_potential_properties := totalL + totalC + totalU
    recommended_approach := recPair.1
    available_methods := availableMethods
    setup_suggestions := suggestions }


/-!
## Derived notions and concrete fixtures used by the verification
-/

/-- The relationship `extract_all_journal_entry_fields` establishes between
    an entry's `accounts_affected` list and its line items: the list is
    duplicate-free, contains only truthy names, and contains the account
    name of every line that has a truthy one. -/
def EntryAccountsWellFormed (e : Entry) : Prop :=
  e.accounts_affected.Nodup ∧
  (∀ a ∈ e.accounts_affected, pyTruthy a = true) ∧
  (∀ l ∈ e.line_items, pyTruthy l.account_name = true → l.account_name ∈ e.accounts_affected)

/-- Sum of the debit amounts of lines carrying a truthy account name. -/
def truthyAccountDebitsSum (entries : List Entry) : ℚ :=
  (entries.map (fun e =>
    (e.line_items.map (fun l =>
      if pyTruthy l.account_name = true then l.debit_amount else 0)).sum)).sum

/-- Sum of the credit amounts of lines carrying a truthy account name. -/
def truthyAccountCreditsSum (entries : List Entry) : ℚ :=
  (entries.map (fun e =>
    (e.line_items.map (fun l =>
      if pyTruthy l.account_name = true then l.credit_amount else 0)).sum)).sum

/-- A raw journal-entry line posting `amt` to account `acct`. -/
def sampleRawLine (posting : String) (acct : String) (amt : ℚ) : Json :=
  .obj [("Description", .str "repair work"),
        ("JournalEntryLineDetail", .obj
          [("Amount", .num amt), ("PostingType", .str posting),
           ("AccountRef", .obj [("value", .str "1"), ("name", .str acct)])])]

/-- A raw line with an unrecognized posting-direction flag. -/
def sampleRawLineBadPosting : Json :=
  .obj [("JournalEntryLineDetail", .obj
          [("Amount", .num 9), ("PostingType", .str "Sideways"),
           ("AccountRef", .obj [("name", .str "Repairs")])])]

/-- A raw line posting a debit with no account reference at all. -/
def sampleRawLineNoAccount : Json :=
  .obj [("Id", .str "L1"), ("LineNum", .num 2),
        ("JournalEntryLineDetail", .obj
          [("Amount", .num 5), ("PostingType", .str "Debit")])]

/-- A well-formed raw entry with one debit and one credit line. -/
def sampleRawEntry : Json :=
  .obj [("Id", .str "7"), ("PrivateNote", .str "monthly close"),
        ("Line", .arr [sampleRawLine "Debit" "Repairs" 5,
                       sampleRawLine "Credit" "Cash" 5])]

/-- A raw entry whose only line has an unrecognized posting flag. -/
def sampleRawEntryBadPosting : Json :=
  .obj [("Id", .str "8"), ("Line", .arr [sampleRawLineBadPosting])]

/-- A raw entry with an unparseable header (`HomeTotalAmt` is not a
    number): `float()` raises on it. -/
def sampleRawEntryBadHeader : Json :=
  .obj [("Id", .str "9"), ("HomeTotalAmt", .str "NOT A NUMBER")]

/-- A raw entry whose debit line carries no account name. -/
def sampleRawEntryNoAccount : Json :=
  .obj [("Id", .str "10"), ("Line", .arr [sampleRawLineNoAccount])]

/-- The line item `sampleRawLineNoAccount` normalizes to. -/
def counterexampleLine : LineItem :=
  { line_index := 0
    line_id := .str "L1"
    line_num := .num 2
    description := ""
    detail_type := .str "JournalEntryLineDetail"
    amount := 5
    posting_type := .str "Debit"
    debit_amount := 5
    credit_amount := 0
    account_name := .null
    vendor_name := .null
    customer_name := .null
    employee_name := .null
    class_name := .null
    location_name := .null
    department_name := .null
    item_name := .null
    property_code_detected := none
    property_indicators := [] }

/-- The entry `sampleRawEntryNoAccount` normalizes to. -/
def counterexampleEntry : Entry :=
  { id := .str "10"
    sync_token := .null
    transaction_date := .null
    doc_number := .str ""
    memo := ""
    adjustment := .bool false
    total_amount := 0
    exchange_rate := .num 1
    total_debits := 5
    total_credits := 0
    line_count := 1
    line_items := [counterexampleLine]
    accounts_affected := []
    vendors_mentioned := []
    customers_mentioned := []
    employees_mentioned := []
    locations_mentioned := []
    classes_mentioned := []
    departments_mentioned := []
    items_mentioned := []
    property_codes_detected := []
    property_analysis := ⟨0, false, false, false, false, "none"⟩ }

/-- An entry fixture for the filter example: all fields empty except the
    given location and class mention sets. -/
def filterFixtureEntry (eid : String) (locs cls : List String) : Entry :=
  { id := .str eid
    sync_token := .null
    transaction_date := .null
    doc_number := .str ""
    memo := ""
    adjustment := .bool false
    total_amount := 0
    exchange_rate := .num 1
    total_debits := 0
    total_credits := 0
    line_count := 0
    line_items := []
    accounts_affected := []
    vendors_mentioned := []
    customers_mentioned := []
    employees_mentioned := []
    locations_mentioned := locs.map Json.str
    classes_mentioned := cls.map Json.str
    departments_mentioned := []
    items_mentioned := []
    property_codes_detected := []
    property_analysis := ⟨0, false, false, false, false, "none"⟩ }

/-- `E1` of the spec's filter example: location `"North"`. -/
def entryE1 : Entry := filterFixtureEntry "E1" ["North"] []

/-- `E2` of the spec's filter example: class `"Retail"`. -/
def entryE2 : Entry := filterFixtureEntry "E2" [] ["Retail"]

/-- `E3` of the spec's filter example: neither. -/
def entryE3 : Entry := filterFixtureEntry "E3" [] []

/-!
## Lemmas: regex engine
-/

/-- Unfolding equation of `reRuns` on a literal. -/
theorem reRuns_lit (fuel : Nat) (w : String) (s : List Char) (cap : Option (List Char)) :
    reRuns fuel (.lit w) s cap =
      if w.toList.isPrefixOf s then [(s.drop w.length, cap)] else [] := by
  cases fuel <;> rfl

/-- Unfolding equation of `reRuns` on a character class. -/
theorem reRuns_cls (fuel : Nat) (p : Char → Bool) (s : List Char)
    (cap : Option (List Char)) :
    reRuns fuel (.cls p) s cap =
      match s with
      | [] => []
      | c :: rest => if p c then [(rest, cap)] else [] := by
  cases fuel <;> rfl

/-- Unfolding equation of `reRuns` on a sequence. -/
theorem reRuns_seq (fuel : Nat) (a b : RE) (s : List Char) (cap : Option (List Char)) :
    reRuns fuel (.seq a b) s cap =
      ((reRuns fuel a s cap).map (fun r => reRuns fuel b r.1 r.2)).flatten := by
  cases fuel <;> rfl

/-- Unfolding equation of `reRuns` on an alternation. -/
theorem reRuns_alt (fuel : Nat) (a b : RE) (s : List Char) (cap : Option (List Char)) :
    reRuns fuel (.alt a b) s cap = reRuns fuel a s cap ++ reRuns fuel b s cap := by
  cases fuel <;> rfl

/-- Unfolding equation of `reRuns` on a group. -/
theorem reRuns_group (fuel : Nat) (a : RE) (s : List Char) (cap : Option (List Char)) :
    reRuns fuel (.group a) s cap =
      (reRuns fuel a s cap).map (fun r => (r.1, some (s.take (s.length - r.1.length)))) := by
  cases fuel <;> rfl

/-- Out of fuel, a `star` yields nothing. -/
theorem reRuns_star_zero (a : RE) (s : List Char) (cap : Option (List Char)) :
    reRuns 0 (.star a) s cap = [] := rfl

/-- Unfolding equation of `reRuns` on a `star` with fuel to spare. -/
theorem reRuns_star_succ (fuel : Nat) (a : RE) (s : List Char) (cap : Option (List Char)) :
    reRuns (fuel + 1) (.star a) s cap =
      ((reRuns fuel a s cap).map (fun p =>
        if p.1.length < s.length then reRuns fuel (.star a) p.1 p.2 else [])).flatten
      ++ [(s, cap)] := rfl

/-- Destruction of a successful `Except` bind. -/
theorem exceptBind_ok {α β : Type} {x : Except String α} {f : α → Except String β}
    {b : β} : (x >>= f) = .ok b ↔ ∃ a, x = .ok a ∧ f a = .ok b := by
  cases x <;> simp [Bind.bind, Except.bind]

/-- Every result of `reRuns` leaves a suffix of the input, and any capture it
    reports is either the one passed in or a contiguous substring of the
    input. -/
theorem reRuns_spec : ∀ (fuel : Nat) (r : RE) (s : List Char)
    (cap : Option (List Char)) (p : List Char × Option (List Char)),
    p ∈ reRuns fuel r s cap →
    p.1 <:+ s ∧ (p.2 = cap ∨ ∃ l, p.2 = some l ∧ l <:+: s)
  | fuel, .lit w, s, cap, p => by
    intro hp
    rw [reRuns_lit] at hp
    split at hp
    · simp only [List.mem_singleton] at hp
      subst hp
      exact ⟨List.drop_suffix _ _, Or.inl rfl⟩
    · simp at hp
  | fuel, .cls q, s, cap, p => by
    intro hp
    rw [reRuns_cls] at hp
    cases s with
    | nil => exact absurd hp (List.not_mem_nil p)
    | cons c rest =>
      by_cases hq : q c
      · simp only [hq, if_true, List.mem_singleton] at hp
        subst hp
        exact ⟨⟨[c], rfl⟩, Or.inl rfl⟩
      · simp [hq] at hp
  | fuel, .seq a b, s, cap, p => by
    intro hp
    rw [reRuns_seq] at hp
    simp only [List.mem_flatten, List.mem_map] at hp
    obtain ⟨_, ⟨mid, hmid, rfl⟩, hp⟩ := hp
    obtain ⟨hs1, hc1⟩ := reRuns_spec fuel a s cap mid hmid
    obtain ⟨hs2, hc2⟩ := reRuns_spec fuel b mid.1 mid.2 p hp
    refine ⟨hs2.trans hs1, ?_⟩
    rcases hc2 with h | ⟨l, hl, hinf⟩
    · rw [h]
      exact hc1
    · exact Or.inr ⟨l, hl, hinf.trans hs1.isInfix⟩
  | fuel, .alt a b, s, cap, p => by
    intro hp
    rw [reRuns_alt] at hp
    rcases List.mem_append.1 hp with h | h
    · exact reRuns_spec fuel a s cap p h
    · exact reRuns_spec fuel b s cap p h
  | 0, .star a, s, cap, p => by
    intro hp
    rw [reRuns_star_zero] at hp
    simp at hp
  | fuel + 1, .star a, s, cap, p => by
    intro hp
    rw [reRuns_star_succ] at hp
    rcases List.mem_append.1 hp with h | h
    · simp only [List.mem_flatten, List.mem_map] at h
      obtain ⟨_, ⟨mid, hmid, rfl⟩, hp2⟩ := h
      split at hp2
      · obtain ⟨hs1, hc1⟩ := reRuns_spec fuel a s cap mid hmid
        obtain ⟨hs2, hc2⟩ := reRuns_spec fuel (.star a) mid.1 mid.2 p hp2
        refine ⟨hs2.trans hs1, ?_⟩
        rcases hc2 with hEq | ⟨l, hl, hinf⟩
        · rw [hEq]
          exact hc1
        · exact Or.inr ⟨l, hl, hinf.trans hs1.isInfix⟩
      · simp at hp2
    · simp only [List.mem_singleton] at h
      subst h
      exact ⟨List.suffix_rfl, Or.inl rfl⟩
  | fuel, .group a, s, cap, p => by
    intro hp
    rw [reRuns_group] at hp
    simp only [List.mem_map] at hp
    obtain ⟨mid, hmid, rfl⟩ := hp
    obtain ⟨hs1, _⟩ := reRuns_spec fuel a s cap mid hmid
    exact ⟨hs1, Or.inr ⟨_, rfl, (List.take_prefix _ _).isInfix⟩⟩
  termination_by fuel r _ _ _ => (fuel, sizeOf r)

/-- Results of `[q]*` consume an initial block of `q`-characters. -/
theorem reRuns_star_cls : ∀ (fuel : Nat) (q : Char → Bool) (s : List Char)
    (cap : Option (List Char)) (p : List Char × Option (List Char)),
    p ∈ reRuns fuel (.star (.cls q)) s cap →
    p.2 = cap ∧ ∃ k, k ≤ s.length ∧ p.1 = s.drop k ∧ (s.take k).all q
  | 0, q, s, cap, p => by
    intro hp
    rw [reRuns_star_zero] at hp
    simp at hp
  | fuel + 1, q, s, cap, p => by
    intro hp
    rw [reRuns_star_succ] at hp
    rcases List.mem_append.1 hp with h | h
    · simp only [List.mem_flatten, List.mem_map] at h
      obtain ⟨_, ⟨mid, hmid, rfl⟩, hp2⟩ := h
      rw [reRuns_cls] at hmid
      cases s with
      | nil => exact absurd hmid (List.not_mem_nil mid)
      | cons c rest =>
        by_cases hq : q c
        · simp only [hq, if_true, List.mem_singleton] at hmid
          subst hmid
          rw [if_pos (by simp)] at hp2
          obtain ⟨hcap, k, hk, h1, h2⟩ := reRuns_star_cls fuel q rest cap p hp2
          refine ⟨hcap, k + 1, by simpa using hk, by simpa using h1, ?_⟩
          simpa [hq] using h2
        · simp [hq] at hmid
    · simp only [List.mem_singleton] at h
      subst h
      exact ⟨rfl, 0, by simp⟩

/-- Captures of `([q]+)` are nonempty blocks of `q`-characters. -/
theorem reRuns_group_plus_cls (fuel : Nat) (q : Char → Bool) (s : List Char)
    (cap : Option (List Char)) (p : List Char × Option (List Char))
    (hp : p ∈ reRuns fuel (.group (rePlus (.cls q))) s cap) :
    ∃ l, p.2 = some l ∧ l ≠ [] ∧ l.all q := by
  rw [reRuns_group] at hp
  simp only [List.mem_map] at hp
  obtain ⟨mid, hmid, rfl⟩ := hp
  rw [rePlus] at hmid
  rw [reRuns_seq] at hmid
  simp only [List.mem_flatten, List.mem_map] at hmid
  obtain ⟨_, ⟨m1, hm1, rfl⟩, hmid2⟩ := hmid
  rw [reRuns_cls] at hm1
  cases s with
  | nil => exact absurd hm1 (List.not_mem_nil m1)
  | cons c rest =>
    by_cases hq : q c
    · simp only [hq, if_true, List.mem_singleton] at hm1
      subst hm1
      obtain ⟨hcap, k, hk, h1, h2⟩ := reRuns_star_cls fuel q rest cap mid hmid2
      have hlen : (c :: rest).length - mid.1.length = k + 1 := by
        rw [h1]
        simp only [List.length_drop, List.length_cons]
        omega
      refine ⟨_, rfl, ?_, ?_⟩
      · rw [hlen]
        simp
      · rw [hlen]
        simpa [hq] using h2
    · simp [hq] at hm1

/-- Captures of the shared marker-pattern shape (rules 1–5) are nonempty
    blocks of `[A-Z0-9\-_]` characters. -/
theorem reRuns_markerPattern (fuel : Nat) (kws : RE) (s : List Char)
    (cap : Option (List Char)) (p : List Char × Option (List Char))
    (hp : p ∈ reRuns fuel (markerPattern kws) s cap) :
    ∃ l, p.2 = some l ∧ l ≠ [] ∧ l.all isCodeChar := by
  rw [markerPattern] at hp
  rw [reRuns_seq] at hp
  simp only [List.mem_flatten, List.mem_map] at hp
  obtain ⟨_, ⟨m1, hm1, rfl⟩, hp⟩ := hp
  rw [reRuns_seq] at hp
  simp only [List.mem_flatten, List.mem_map] at hp
  obtain ⟨_, ⟨m2, hm2, rfl⟩, hp⟩ := hp
  exact reRuns_group_plus_cls _ _ _ _ _ hp

/-- Captures reported by the scanner for a marker pattern (rules 1–5) are
    nonempty blocks of `[A-Z0-9\-_]` characters. -/
theorem reScan_markerPattern (kws : RE) : ∀ (fuel : Nat) (s : List Char)
    (c : Option (List Char)), c ∈ reScan (markerPattern kws) fuel s →
    ∃ l, c = some l ∧ l ≠ [] ∧ l.all isCodeChar := by
  intro fuel
  induction fuel with
  | zero =>
    intro s c hc
    simp [reScan] at hc
  | succ f ih =>
    intro s c hc
    unfold reScan at hc
    split at hc
    · rename_i pr hm
      have hmem : pr ∈ reRuns (s.length + 1) (markerPattern kws) s none :=
        List.mem_of_mem_head? (Option.mem_def.mpr hm)
      rcases List.mem_cons.1 hc with rfl | htail
      · obtain ⟨l, hl, hne, hall⟩ := reRuns_markerPattern _ _ _ _ _ hmem
        exact ⟨l, hl, hne, hall⟩
      · split at htail
        · exact ih pr.1 c htail
        · split at htail
          · exact absurd htail (List.not_mem_nil c)
          · exact ih s.tail c htail
    · split at hc
      · exact absurd hc (List.not_mem_nil c)
      · exact ih s.tail c hc

/-- Any capture reported by the scanner is a contiguous substring of the
    scanned text. -/
theorem reScan_infix (r : RE) : ∀ (fuel : Nat) (s : List Char)
    (c : Option (List Char)) (l : List Char),
    c ∈ reScan r fuel s → c = some l → l <:+: s := by
  intro fuel
  induction fuel with
  | zero =>
    intro s c l hc
    simp [reScan] at hc
  | succ f ih =>
    intro s c l hc hcl
    subst hcl
    unfold reScan at hc
    split at hc
    · rename_i pr hm
      have hmem : pr ∈ reRuns (s.length + 1) r s none :=
        List.mem_of_mem_head? (Option.mem_def.mpr hm)
      obtain ⟨hsuf, hcap⟩ := reRuns_spec _ _ _ _ _ hmem
      rcases List.mem_cons.1 hc with heq | htail
      · rcases hcap with hnone | ⟨l', hl', hinf⟩
        · rw [← heq] at hnone
          exact absurd hnone (by simp)
        · rw [← heq] at hl'
          obtain rfl : l = l' := by injection hl'
          exact hinf
      · split at htail
        · exact (ih pr.1 _ l htail rfl).trans hsuf.isInfix
        · split at htail
          · exact absurd htail (List.not_mem_nil _)
          · exact (ih s.tail _ l htail rfl).trans (List.tail_suffix s).isInfix
    · split at hc
      · exact absurd hc (List.not_mem_nil _)
      · exact (ih s.tail _ l hc rfl).trans (List.tail_suffix s).isInfix

/-- `(String.mk l).toList = l`. -/
theorem stringToList_mk (l : List Char) : (String.mk l).toList = l := rfl

/-- Matches returned by `findall` for a marker pattern (rules 1–5) are
    nonempty and consist only of `[A-Z0-9\-_]` characters. -/
theorem reFindAll_markerPattern {kws : RE} {t m : String}
    (hm : m ∈ reFindAll (markerPattern kws) t) :
    m.toList ≠ [] ∧ m.toList.all isCodeChar := by
  unfold reFindAll at hm
  simp only [List.mem_map] at hm
  obtain ⟨c, hc, rfl⟩ := hm
  obtain ⟨l, rfl, hne, hall⟩ := reScan_markerPattern kws _ _ _ hc
  rw [stringToList_mk]
  exact ⟨hne, hall⟩

/-- Every `findall` match is a contiguous substring of the searched text. -/
theorem reFindAll_substring {r : RE} {t m : String} (hm : m ∈ reFindAll r t) :
    m.toList <:+: t.toList := by
  unfold reFindAll at hm
  simp only [List.mem_map] at hm
  obtain ⟨c, hc, rfl⟩ := hm
  cases c with
  | none => simp [stringToList_mk]
  | some l =>
    rw [stringToList_mk]
    exact reScan_infix r _ _ _ l hc rfl

/-!
## Lemmas: `strip`
-/

/-- The head surviving a `dropWhile` fails the predicate. -/
theorem head?_dropWhile_false {p : Char → Bool} :
    ∀ {l : List Char} {a : Char}, (l.dropWhile p).head? = some a → p a = false := by
  intro l
  induction l with
  | nil => intro a h; simp at h
  | cons x xs ih =>
    intro a h
    rw [List.dropWhile_cons] at h
    by_cases hx : p x
    · rw [if_pos hx] at h
      exact ih h
    · rw [if_neg hx] at h
      simp only [List.head?_cons, Option.some.injEq] at h
      subst h
      simpa using hx

/-- `dropWhile` fixes a list whose head fails the predicate. -/
theorem dropWhile_eq_self_of {p : Char → Bool} {l : List Char}
    (h : ∀ a, l.head? = some a → p a = false) : l.dropWhile p = l := by
  cases l with
  | nil => rfl
  | cons x xs =>
    rw [List.dropWhile_cons, if_neg]
    simp [h x rfl]

/-- A nonempty prefix shares the head. -/
theorem isPrefix_head? {l₁ l₂ : List Char} {a : Char} (h : l₁ <+: l₂)
    (ha : l₁.head? = some a) : l₂.head? = some a := by
  obtain ⟨t, rfl⟩ := h
  cases l₁ with
  | nil => simp at ha
  | cons x xs => simpa using ha

/-- `strip` yields a prefix of the left-stripped list. -/
theorem pyStrip_prefix_dropWhile (l : List Char) :
    pyStrip l <+: l.dropWhile isPySpace := by
  unfold pyStrip
  have h2 : (l.dropWhile isPySpace).reverse.dropWhile isPySpace <:+
      (l.dropWhile isPySpace).reverse := List.dropWhile_suffix _
  have h3 := List.reverse_prefix.mpr h2
  rwa [List.reverse_reverse] at h3

/-- `strip` yields a contiguous substring. -/
theorem pyStrip_substring (l : List Char) : pyStrip l <:+: l :=
  (pyStrip_prefix_dropWhile l).isInfix.trans (List.dropWhile_suffix _).isInfix

/-- The head of a stripped list is not whitespace. -/
theorem pyStrip_head_false {l : List Char} {a : Char}
    (h : (pyStrip l).head? = some a) : isPySpace a = false :=
  head?_dropWhile_false (isPrefix_head? (pyStrip_prefix_dropWhile l) h)

/-- The last character of a stripped list is not whitespace. -/
theorem pyStrip_revhead_false {l : List Char} {a : Char}
    (h : (pyStrip l).reverse.head? = some a) : isPySpace a = false := by
  have : (pyStrip l).reverse = (l.dropWhile isPySpace).reverse.dropWhile isPySpace := by
    unfold pyStrip
    rw [List.reverse_reverse]
  rw [this] at h
  exact head?_dropWhile_false h

/-- `strip` is idempotent. -/
theorem pyStrip_idem (l : List Char) : pyStrip (pyStrip l) = pyStrip l := by
  have h1 : (pyStrip l).dropWhile isPySpace = pyStrip l :=
    dropWhile_eq_self_of fun a ha => pyStrip_head_false ha
  have h2 : (pyStrip l).reverse.dropWhile isPySpace = (pyStrip l).reverse :=
    dropWhile_eq_self_of fun a ha => pyStrip_revhead_false ha
  calc pyStrip (pyStrip l)
      = (((pyStrip l).dropWhile isPySpace).reverse.dropWhile isPySpace).reverse := rfl
    _ = ((pyStrip l).reverse.dropWhile isPySpace).reverse := by rw [h1]
    _ = (pyStrip l).reverse.reverse := by rw [h2]
    _ = pyStrip l := List.reverse_reverse _

/-- `strip` fixes a list with no whitespace at all. -/
theorem pyStrip_eq_self_of_all {l : List Char}
    (h : ∀ c ∈ l, isPySpace c = false) : pyStrip l = l := by
  have h1 : l.dropWhile isPySpace = l :=
    dropWhile_eq_self_of fun a ha => h a (by cases l <;> simp_all)
  have h2 : l.reverse.dropWhile isPySpace = l.reverse :=
    dropWhile_eq_self_of fun a ha => by
      apply h a
      have hmem := List.mem_of_mem_head? (Option.mem_def.mpr ha)
      rw [← List.mem_reverse]
      exact hmem
  calc pyStrip l = ((l.dropWhile isPySpace).reverse.dropWhile isPySpace).reverse := rfl
    _ = (l.reverse.dropWhile isPySpace).reverse := by rw [h1]
    _ = l.reverse.reverse := by rw [h2]
    _ = l := List.reverse_reverse _

/-- Code-class characters are never whitespace. -/
theorem isCodeChar_not_space {c : Char} (h : isCodeChar c = true) :
    isPySpace c = false := by
  by_contra hcon
  rw [Bool.not_eq_false] at hcon
  simp only [isPySpace, decide_eq_true_eq] at hcon
  rcases hcon with rfl | rfl | rfl | rfl | rfl | rfl <;>
    exact absurd h (by decide)

/-- `String.mk (s.toList) = s`. -/
theorem stringMk_toList (s : String) : String.mk s.toList = s := rfl

/-- If the first match's strip is nonempty, the inner loop returns it. -/
theorem firstMeaningfulMatch_cons_of_len {m : String} {ms : List String}
    (h : 1 ≤ (pyStripStr m).length) :
    firstMeaningfulMatch (m :: ms) = some (pyStripStr m) := by
  unfold firstMeaningfulMatch
  rw [List.find?_cons_of_pos]
  · rfl
  · simpa using h

/-- What a successful inner loop tells us about its result. -/
theorem firstMeaningfulMatch_some {ms : List String} {c : String}
    (h : firstMeaningfulMatch ms = some c) :
    ∃ m ∈ ms, c = pyStripStr m ∧ 1 ≤ (pyStripStr m).length := by
  unfold firstMeaningfulMatch at h
  rw [Option.map_eq_some'] at h
  obtain ⟨m, hfind, rfl⟩ := h
  refine ⟨m, List.mem_of_find?_eq_some hfind, rfl, ?_⟩
  have := List.find?_some hfind
  simpa using this

/-- A successful pattern loop returns some pattern's meaningful match. -/
theorem extractFromPatterns_some : ∀ (ps : List RE) (txt : String) (c : String),
    extractFromPatterns ps txt = some c →
    ∃ p ∈ ps, firstMeaningfulMatch (reFindAll p txt) = some c
  | [], txt, c => by
    intro h
    simp [extractFromPatterns] at h
  | p :: ps, txt, c => by
    intro h
    unfold extractFromPatterns at h
    cases hf : firstMeaningfulMatch (reFindAll p txt) with
    | some c' =>
      simp only [hf] at h
      exact ⟨p, List.mem_cons_self _ _, by rw [hf, h]⟩
    | none =>
      simp only [hf] at h
      obtain ⟨p', hp', hfm⟩ := extractFromPatterns_some ps txt c h
      exact ⟨p', List.mem_cons_of_mem _ hp', hfm⟩

/-- If every pattern strictly before index `i` yields no meaningful match and
    pattern `i` yields one, the pattern loop returns pattern `i`'s match. -/
theorem extractFromPatterns_first : ∀ (ps : List RE) (txt : String) (i : Nat)
    (hi : i < ps.length) (m : String),
    (∀ j (hj : j < i),
      firstMeaningfulMatch (reFindAll (ps.get ⟨j, Nat.lt_trans hj hi⟩) txt) = none) →
    firstMeaningfulMatch (reFindAll (ps.get ⟨i, hi⟩) txt) = some m →
    extractFromPatterns ps txt = some m
  | [], _, i, hi, _ => by
    intro _ _
    exact absurd hi (Nat.not_lt_zero i)
  | p :: ps, txt, 0, hi, m => by
    intro _ hm
    unfold extractFromPatterns
    rw [show (p :: ps).get ⟨0, hi⟩ = p from rfl] at hm
    rw [hm]
  | p :: ps, txt, i + 1, hi, m => by
    intro hnone hm
    unfold extractFromPatterns
    have h0 : firstMeaningfulMatch (reFindAll p txt) = none :=
      hnone 0 (Nat.succ_pos i)
    rw [h0]
    exact extractFromPatterns_first ps txt i (Nat.lt_of_succ_lt_succ hi) m
      (fun j hj => hnone (j + 1) (Nat.succ_lt_succ hj)) hm

/-- If no pattern yields a meaningful match, the pattern loop returns none. -/
theorem extractFromPatterns_none : ∀ (ps : List RE) (txt : String),
    (∀ p ∈ ps, firstMeaningfulMatch (reFindAll p txt) = none) →
    extractFromPatterns ps txt = none
  | [], _ => by
    intro _
    rfl
  | p :: ps, txt => by
    intro h
    unfold extractFromPatterns
    rw [h p (List.mem_cons_self _ _)]
    exact extractFromPatterns_none ps txt (fun q hq => h q (List.mem_cons_of_mem _ hq))

/-- C2: property-code detection applies its eight extraction rules in the
    fixed source order `propertyPatterns`, and the first rule producing a
    meaningful match wins, no later rule being consulted: (1) for every
    nonempty input and every rule index `i`, if rules `0..i-1` yield no
    meaningful `findall` match on the normalized text and rule `i` yields
    one, the detector returns exactly rule `i`'s first meaningful match;
    (2) if all eight rules yield no meaningful match the detector returns
    none; (3) on `"PROPERTY A - UNIT 5B"` the detected code is `"A"` from
    rule 1, even though (4) rule 2 also matches, with unit code `"5B"`,
    which (5) it indeed returns once rule 1 no longer matches, as on
    `"UNIT 5B"`. -/
theorem extract_property_rule_priority :
    (∀ (t m : String) (i : Nat) (hi : i < propertyPatterns.length),
      t ≠ "" →
      (∀ j (hj : j < i),
        firstMeaningfulMatch
          (reFindAll (propertyPatterns.get ⟨j, Nat.lt_trans hj hi⟩) (normPropText t)) = none) →
      firstMeaningfulMatch
        (reFindAll (propertyPatterns.get ⟨i, hi⟩) (normPropText t)) = some m →
      extract_property_from_text t = some m) ∧
    (∀ t : String,
      (∀ p ∈ propertyPatterns,
        firstMeaningfulMatch (reFindAll p (normPropText t)) = none) →
      extract_property_from_text t = none) ∧
    extract_property_from_text "PROPERTY A - UNIT 5B" = some "A" ∧
    firstMeaningfulMatch (reFindAll rePat2 (normPropText "PROPERTY A - UNIT 5B")) = some "5B" ∧
    extract_property_from_text "UNIT 5B" = some "5B" := by
  refine ⟨?_, ?_, rfl, rfl, rfl⟩
  · intro t m i hi ht hnone hm
    unfold extract_property_from_text
    rw [if_neg ht]
    exact extractFromPatterns_first propertyPatterns (normPropText t) i hi m hnone hm
  · intro t h
    unfold extract_property_from_text
    by_cases ht : t = ""
    · rw [if_pos ht]
    · rw [if_neg ht]
      exact extractFromPatterns_none propertyPatterns (normPropText t) h

/-- Witness for `extract_property_rule_priority`: on `"UNIT 7"` rule 1 yields
    no meaningful match, rule 2 yields `"7"`, and the detector returns it. -/
theorem extract_property_rule_priority_witness :
    extract_property_from_text "UNIT 7" = some "7" :=
  extract_property_rule_priority.1 "UNIT 7" "7" 1 (by decide) (by decide)
    (fun j hj => by
      have hj0 : j = 0 := Nat.lt_one_iff.mp hj
      subst hj0
      show firstMeaningfulMatch
        (reFindAll (propertyPatterns.get ⟨0, by decide⟩) (normPropText "UNIT 7")) = none
      decide)
    (by decide)

/-- C10: whenever property-code detection returns a code, that code is a
    nonempty string, is unchanged by stripping (no leading or trailing
    whitespace), and occurs as a contiguous substring of the uppercased,
    trimmed input text. -/
theorem detected_code_is_substring :
    ∀ (t c : String), extract_property_from_text t = some c →
      c ≠ "" ∧ pyStripStr c = c ∧ c.toList <:+: (normPropText t).toList := by
  intro t c h
  unfold extract_property_from_text at h
  split at h
  · exact absurd h (by simp)
  · obtain ⟨p, hp, hfm⟩ := extractFromPatterns_some _ _ _ h
    obtain ⟨m, hmem, rfl, hlen⟩ := firstMeaningfulMatch_some hfm
    refine ⟨?_, ?_, ?_⟩
    · intro hcon
      rw [hcon] at hlen
      exact absurd hlen (by decide)
    · show pyStripStr (pyStripStr m) = pyStripStr m
      unfold pyStripStr
      rw [stringToList_mk, pyStrip_idem]
    · have h1 : (pyStripStr m).toList = pyStrip m.toList := rfl
      rw [h1]
      exact (pyStrip_substring m.toList).trans (reFindAll_substring hmem)

/-- Witness for `detected_code_is_substring` at a concrete detection. -/
theorem detected_code_is_substring_witness :
    ("A" : String) ≠ "" ∧ pyStripStr "A" = "A" ∧
      ("A" : String).toList <:+: (normPropText "PROPERTY A - UNIT 5B").toList :=
  detected_code_is_substring "PROPERTY A - UNIT 5B" "A" (by decide)

/-!
## Lemmas: line & entry normalizer
-/

/-- The accumulation loop leaves the memo unchanged. -/
theorem entryFold_memo (items : List LineItem) : ∀ (base : Entry),
    (items.foldl entryStep base).memo = base.memo := by
  induction items with
  | nil => intro base; rfl
  | cons it its ih => intro base; rw [List.foldl_cons, ih]; rfl

/-- The accumulation loop appends each line item in order. -/
theorem entryFold_line_items (items : List LineItem) : ∀ (base : Entry),
    (items.foldl entryStep base).line_items = base.line_items ++ items := by
  induction items with
  | nil => intro base; simp
  | cons it its ih =>
    intro base
    rw [List.foldl_cons, ih]
    simp [entryStep]

/-- The accumulation loop adds each line's debit amount exactly once. -/
theorem entryFold_debits (items : List LineItem) : ∀ (base : Entry),
    (items.foldl entryStep base).total_debits =
      base.total_debits + (items.map (fun l => l.debit_amount)).sum := by
  induction items with
  | nil => intro base; simp
  | cons it its ih =>
    intro base
    rw [List.foldl_cons, ih]
    simp [entryStep]
    ring

/-- The accumulation loop adds each line's credit amount exactly once. -/
theorem entryFold_credits (items : List LineItem) : ∀ (base : Entry),
    (items.foldl entryStep base).total_credits =
      base.total_credits + (items.map (fun l => l.credit_amount)).sum := by
  induction items with
  | nil => intro base; simp
  | cons it its ih =>
    intro base
    rw [List.foldl_cons, ih]
    simp [entryStep]
    ring

/-- The accumulation loop counts each line exactly once. -/
theorem entryFold_line_count (items : List LineItem) : ∀ (base : Entry),
    (items.foldl entryStep base).line_count = base.line_count + items.length := by
  induction items with
  | nil => intro base; simp
  | cons it its ih =>
    intro base
    rw [List.foldl_cons, ih]
    simp [entryStep]
    ring

/-- The accumulation loop builds `accounts_affected` by the conditional
    append of each line's account name. -/
theorem entryFold_accounts (items : List LineItem) : ∀ (base : Entry),
    (items.foldl entryStep base).accounts_affected =
      items.foldl (fun acc it => addIfTruthyNew acc it.account_name)
        base.accounts_affected := by
  induction items with
  | nil => intro base; rfl
  | cons it its ih =>
    intro base
    rw [List.foldl_cons, ih, List.foldl_cons]
    rfl

/-- `extractLines` preserves the line count and processes line `i` with
    index `idx + i` and the parent memo. -/
theorem extractLines_spec : ∀ (ls : List Json) (idx : Nat) (memo : String)
    (items : List LineItem), extractLines ls idx memo = .ok items →
    items.length = ls.length ∧
    ∀ i (hi : i < ls.length), ∃ (hi' : i < items.length),
      extract_all_line_fields (ls.get ⟨i, hi⟩) (idx + i) memo =
        .ok (items.get ⟨i, hi'⟩) := by
  intro ls
  induction ls with
  | nil =>
    intro idx memo items h
    simp only [extractLines, Except.ok.injEq] at h
    subst h
    exact ⟨rfl, fun i hi => absurd hi (Nat.not_lt_zero i)⟩
  | cons l rest ih =>
    intro idx memo items h
    unfold extractLines at h
    rw [exceptBind_ok] at h
    obtain ⟨li, hli, h⟩ := h
    rw [exceptBind_ok] at h
    obtain ⟨lis, hlis, h⟩ := h
    rw [Except.ok.injEq] at h
    subst h
    obtain ⟨hlen, hidx⟩ := ih (idx + 1) memo lis hlis
    refine ⟨by simp [hlen], ?_⟩
    intro i hi
    cases i with
    | zero =>
      refine ⟨by simp, ?_⟩
      simpa using hli
    | succ n =>
      have hn : n < rest.length := by simpa using hi
      obtain ⟨hi', hcall⟩ := hidx n hn
      refine ⟨by simpa using hi', ?_⟩
      have harith : idx + (n + 1) = idx + 1 + n := by omega
      simpa [harith] using hcall

/-- What a successful `extract_all_journal_entry_fields` run consists of:
    the line list parses, every line is extracted with the entry's memo, and
    the derived fields are the corresponding folds over the line items. -/
theorem extract_ok_elim {j : Json} {e : Entry}
    (h : extract_all_journal_entry_fields j = .ok e) :
    ∃ (rawLines : List Json) (items : List LineItem),
      ((pyGet j "Line" (.arr [])) >>= asList) = .ok rawLines ∧
      extractLines rawLines 0 e.memo = .ok items ∧
      e.line_items = items ∧
      e.total_debits = (items.map (fun l => l.debit_amount)).sum ∧
      e.total_credits = (items.map (fun l => l.credit_amount)).sum ∧
      e.line_count = items.length ∧
      e.accounts_affected =
        items.foldl (fun acc it => addIfTruthyNew acc it.account_name) [] := by
  unfold extract_all_journal_entry_fields at h
  simp only [exceptBind_ok] at h
  obtain ⟨entryId, hId, syncToken, hSync, txnDate, hTxn, docNumber, hDoc,
    privateNote, hPriv, adjustment, hAdj, htaJ, hHome, totalAmount, hFloat,
    exchangeRate, hEx, lineJ, hLineGet, rawLines, hAsList, items, hItems, hfin⟩ := h
  rw [Except.ok.injEq] at hfin
  subst hfin
  refine ⟨rawLines, items, ?_, ?_, ?_, ?_, ?_, ?_, ?_⟩
  · rw [hLineGet]
    exact hAsList
  · have hmemo : (items.foldl entryStep
        { id := entryId, sync_token := syncToken, transaction_date := txnDate,
          doc_number := docNumber, memo := pyStr privateNote,
          adjustment := adjustment, total_amount := totalAmount,
          exchange_rate := exchangeRate, total_debits := 0, total_credits := 0,
          line_count := 0, line_items := [], accounts_affected := [],
          vendors_mentioned := [], customers_mentioned := [],
          employees_mentioned := [], locations_mentioned := [],
          classes_mentioned := [], departments_mentioned := [],
          items_mentioned := [], property_codes_detected := [],
          property_analysis := ⟨0, false, false, false, false, "none"⟩ } : Entry).memo
        = pyStr privateNote := entryFold_memo items _
    simpa [hmemo] using hItems
  · simpa using entryFold_line_items items _
  · simp [entryFold_debits]
  · simp [entryFold_credits]
  · simp [entryFold_line_count]
  · simp [entryFold_accounts]

/-- C4: for every normalized entry, `total_debits` is the sum of its lines'
    debit amounts and `total_credits` the sum of the credit amounts; an
    entry with zero lines normalizes without error to zero totals, empty
    mention sets and no detected property codes. -/
theorem entry_totals_are_line_sums :
    (∀ (j : Json) (e : Entry), extract_all_journal_entry_fields j = .ok e →
      e.total_debits = (e.line_items.map (fun l => l.debit_amount)).sum ∧
      e.total_credits = (e.line_items.map (fun l => l.credit_amount)).sum) ∧
    (extract_all_journal_entry_fields (.obj [("Id", .str "1"), ("Line", .arr [])])).map
      (fun e => (e.total_debits, e.total_credits, e.line_count, e.accounts_affected,
        e.vendors_mentioned, e.customers_mentioned, e.employees_mentioned,
        e.locations_mentioned, e.classes_mentioned, e.departments_mentioned,
        e.items_mentioned, e.property_codes_detected)) =
      .ok (0, 0, 0, [], [], [], [], [], [], [], [], []) := by
  constructor
  · intro j e h
    obtain ⟨rawLines, items, _, _, hline, hdeb, hcred, _, _⟩ := extract_ok_elim h
    rw [hline, hdeb, hcred]
    exact ⟨rfl, rfl⟩
  · rfl

/-- Witness for `entry_totals_are_line_sums` on a two-line entry. -/
theorem entry_totals_are_line_sums_witness :
    ∃ e, extract_all_journal_entry_fields sampleRawEntry = .ok e ∧
      (e.total_debits = (e.line_items.map (fun l => l.debit_amount)).sum ∧
       e.total_credits = (e.line_items.map (fun l => l.credit_amount)).sum) := by
  cases h : extract_all_journal_entry_fields sampleRawEntry with
  | error msg =>
    have hne : extract_all_journal_entry_fields sampleRawEntry ≠ .error msg := by
      intro hcon
      have hok : (extract_all_journal_entry_fields sampleRawEntry).isOk = true := by decide
      rw [hcon] at hok
      simp [Except.isOk, Except.toBool] at hok
    exact absurd h hne
  | ok e => exact ⟨e, rfl, entry_totals_are_line_sums.1 _ _ h⟩

/-- `addIfTruthyNew` preserves duplicate-freeness. -/
theorem addIfTruthyNew_nodup {l : List Json} {v : Json} (h : l.Nodup) :
    (addIfTruthyNew l v).Nodup := by
  unfold addIfTruthyNew
  split
  · next hcond => simp [List.nodup_append, h, hcond.2]
  · exact h

/-- `addIfTruthyNew` only ever adds truthy values. -/
theorem addIfTruthyNew_truthyAll {l : List Json} {v : Json}
    (h : ∀ a ∈ l, pyTruthy a = true) :
    ∀ a ∈ addIfTruthyNew l v, pyTruthy a = true := by
  intro a ha
  unfold addIfTruthyNew at ha
  split at ha
  · next hcond =>
    rcases List.mem_append.1 ha with h1 | h1
    · exact h a h1
    · rw [List.mem_singleton] at h1
      subst h1
      exact hcond.1
  · exact h a ha

/-- `addIfTruthyNew` never removes elements. -/
theorem addIfTruthyNew_subset (l : List Json) (v : Json) :
    l ⊆ addIfTruthyNew l v := by
  unfold addIfTruthyNew
  split
  · exact List.subset_append_left _ _
  · exact List.Subset.refl _

/-- A truthy value ends up in the list. -/
theorem addIfTruthyNew_mem_self {l : List Json} {v : Json}
    (hv : pyTruthy v = true) : v ∈ addIfTruthyNew l v := by
  unfold addIfTruthyNew
  split
  · simp
  · next hcond =>
    rcases not_and_or.1 hcond with h1 | h1
    · exact absurd hv h1
    · simpa using h1

/-- Invariant of the conditional-append fold building a mention list:
    duplicate-free, all truthy, closed under the processed items, and
    extending the accumulator. -/
theorem collectFold_wf (f : LineItem → Json) (items : List LineItem) :
    ∀ (acc : List Json), acc.Nodup → (∀ a ∈ acc, pyTruthy a = true) →
      ((items.foldl (fun acc it => addIfTruthyNew acc (f it)) acc).Nodup ∧
       (∀ a ∈ items.foldl (fun acc it => addIfTruthyNew acc (f it)) acc,
          pyTruthy a = true) ∧
       (∀ l ∈ items, pyTruthy (f l) = true →
          f l ∈ items.foldl (fun acc it => addIfTruthyNew acc (f it)) acc) ∧
       acc ⊆ items.foldl (fun acc it => addIfTruthyNew acc (f it)) acc) := by
  induction items with
  | nil =>
    intro acc h1 h2
    exact ⟨h1, h2, fun l hl => absurd hl (List.not_mem_nil l), List.Subset.refl _⟩
  | cons it its ih =>
    intro acc h1 h2
    rw [List.foldl_cons]
    obtain ⟨n1, n2, n3, n4⟩ :=
      ih (addIfTruthyNew acc (f it)) (addIfTruthyNew_nodup h1)
        (addIfTruthyNew_truthyAll h2)
    refine ⟨n1, n2, ?_, (addIfTruthyNew_subset acc (f it)).trans n4⟩
    intro l hl htruthy
    rcases List.mem_cons.1 hl with rfl | hl'
    · exact n4 (addIfTruthyNew_mem_self htruthy)
    · exact n3 l hl' htruthy

/-- Every entry produced by the normalizer satisfies the accounts
    well-formedness invariant used in the account-aggregation theorem. -/
theorem extract_ok_wellformed {j : Json} {e : Entry}
    (h : extract_all_journal_entry_fields j = .ok e) :
    EntryAccountsWellFormed e := by
  obtain ⟨rawLines, items, _, _, hline, _, _, _, hacc⟩ := extract_ok_elim h
  obtain ⟨n1, n2, n3, _⟩ :=
    collectFold_wf (fun l => l.account_name) items [] List.nodup_nil (by simp)
  refine ⟨?_, ?_, ?_⟩
  · rw [hacc]; exact n1
  · rw [hacc]; exact n2
  · rw [hacc, hline]; exact n3

/-- C7: a line whose posting-direction flag is neither `Debit` nor `Credit`
    normalizes with both `debit_amount` and `credit_amount` zero, and lines
    are never discarded: the entry keeps one output line item per raw line,
    in order, and its totals are exactly the sums over those items (so an
    unrecognized-posting line contributes zero). -/
theorem unrecognized_posting_zeroes_line :
    (∀ (line : Json) (idx : Nat) (memo : String) (li : LineItem) (je v : Json),
      pyGet line "JournalEntryLineDetail" (.obj []) = .ok je →
      pyGet je "PostingType" .null = .ok v →
      v ≠ .str "Debit" → v ≠ .str "Credit" →
      extract_all_line_fields line idx memo = .ok li →
      li.debit_amount = 0 ∧ li.credit_amount = 0) ∧
    (∀ (j : Json) (e : Entry) (rawLines : List Json),
      extract_all_journal_entry_fields j = .ok e →
      (pyGet j "Line" (.arr [])) >>= asList = .ok rawLines →
      e.line_items.length = rawLines.length ∧
      e.total_debits = (e.line_items.map (fun l => l.debit_amount)).sum ∧
      e.total_credits = (e.line_items.map (fun l => l.credit_amount)).sum ∧
      ∀ i (hi : i < rawLines.length), ∃ li,
        extract_all_line_fields (rawLines.get ⟨i, hi⟩) i e.memo = .ok li ∧
        e.line_items.get? i = some li) := by
  constructor
  · intro line idx memo li je v hje hv hnd hnc hok
    unfold extract_all_line_fields at hok
    simp only [exceptBind_ok] at hok
    obtain ⟨je2, h1, lineId, h2, lineNum, h3, descJ, h4, detailType, h5,
      amtJ, h6, amount, h7, postingStored, h8, postingRaw, h9,
      accountRef, h10, accountName, h11, entity, h12, entityType, h13,
      vendorName, h14, customerName, h15, employeeName, h16,
      classRef, h17, className, h18, locationRef, h19, locationName, h20,
      departmentRef, h21, departmentName, h22, itemRef, h23, itemName, h24,
      hfin⟩ := hok
    rw [hje, Except.ok.injEq] at h1
    subst h1
    rw [hv, Except.ok.injEq] at h9
    subst h9
    rw [Except.ok.injEq] at hfin
    subst hfin
    constructor
    · show (if v = Json.str "Debit" then amount else 0) = 0
      rw [if_neg hnd]
    · show (if v = Json.str "Credit" then amount else 0) = 0
      rw [if_neg hnc]
  · intro j e rawLines hok hraw
    obtain ⟨rawLines2, items, hbind, hextract, hli, hdeb, hcred, _, _⟩ :=
      extract_ok_elim hok
    rw [hraw, Except.ok.injEq] at hbind
    subst hbind
    obtain ⟨hlen, hidx⟩ := extractLines_spec rawLines 0 e.memo items hextract
    refine ⟨by rw [hli, hlen], by rw [hli, hdeb], by rw [hli, hcred], ?_⟩
    intro i hi
    obtain ⟨hi', hcall⟩ := hidx i hi
    refine ⟨items.get ⟨i, hi'⟩, by simpa using hcall, ?_⟩
    rw [hli]
    exact List.get?_eq_get hi'

/-- Witness for `unrecognized_posting_zeroes_line` on a line whose posting
    flag is `"Sideways"`. -/
theorem unrecognized_posting_zeroes_line_witness :
    ∃ li, extract_all_line_fields sampleRawLineBadPosting 0 "" = .ok li ∧
      li.debit_amount = 0 ∧ li.credit_amount = 0 := by
  cases h : extract_all_line_fields sampleRawLineBadPosting 0 "" with
  | error msg =>
    have hok : (extract_all_line_fields sampleRawLineBadPosting 0 "").isOk = true := by
      decide
    rw [h] at hok
    simp [Except.isOk, Except.toBool] at hok
  | ok li =>
    refine ⟨li, rfl, ?_⟩
    exact unrecognized_posting_zeroes_line.1 sampleRawLineBadPosting 0 "" li
      (.obj [("Amount", .num 9), ("PostingType", .str "Sideways"),
             ("AccountRef", .obj [("name", .str "Repairs")])])
      (.str "Sideways") (by rfl) (by rfl) (by decide) (by decide) h

/-!
## Lemmas: account aggregation
-/

/-- The inner line walk adds exactly this account's line debits. -/
theorem accountLineFold_debits (a : Json) (lines : List LineItem) :
    ∀ (b : AccountBucket), (accountLineFold a b lines).total_debits =
      b.total_debits +
        (lines.map (fun l => if l.account_name = a then l.debit_amount else 0)).sum := by
  induction lines with
  | nil => intro b; simp [accountLineFold]
  | cons l ls ih =>
    intro b
    have hstep : accountLineFold a b (l :: ls) =
        accountLineFold a
          (if l.account_name = a then
            { b with total_debits := b.total_debits + l.debit_amount,
                     total_credits := b.total_credits + l.credit_amount }
          else b) ls := by
      unfold accountLineFold
      rw [List.foldl_cons]
    rw [hstep, ih]
    by_cases hl : l.account_name = a
    · simp [hl]
      ring
    · simp [hl]

/-- The inner line walk adds exactly this account's line credits. -/
theorem accountLineFold_credits (a : Json) (lines : List LineItem) :
    ∀ (b : AccountBucket), (accountLineFold a b lines).total_credits =
      b.total_credits +
        (lines.map (fun l => if l.account_name = a then l.credit_amount else 0)).sum := by
  induction lines with
  | nil => intro b; simp [accountLineFold]
  | cons l ls ih =>
    intro b
    have hstep : accountLineFold a b (l :: ls) =
        accountLineFold a
          (if l.account_name = a then
            { b with total_debits := b.total_debits + l.debit_amount,
                     total_credits := b.total_credits + l.credit_amount }
          else b) ls := by
      unfold accountLineFold
      rw [List.foldl_cons]
    rw [hstep, ih]
    by_cases hl : l.account_name = a
    · simp [hl]
      ring
    · simp [hl]

/-- A dict bump whose update adds `d` to a projection adds `d` to the
    projection's total over the whole dict. -/
theorem assocBump_projSum (proj : AccountBucket → ℚ) (a : Json)
    (f : AccountBucket → AccountBucket) (d : ℚ)
    (hf : ∀ b, proj (f b) = proj b + d) (h0 : proj ⟨0, 0, 0⟩ = 0) :
    ∀ (l : List (Json × AccountBucket)),
      ((assocBump l a f).map (fun kv => proj kv.2)).sum =
        (l.map (fun kv => proj kv.2)).sum + d := by
  intro l
  induction l with
  | nil => simp [assocBump, hf, h0]
  | cons kv rest ih =>
    obtain ⟨k, v⟩ := kv
    unfold assocBump
    by_cases hk : k = a
    · rw [if_pos hk]
      simp [hf]
      ring
    · rw [if_neg hk]
      simp only [List.map_cons, List.sum_cons, ih]
      ring

/-- Sum distributes over a pointwise sum of two maps. -/
theorem sum_map_add_split (g h : LineItem → ℚ) :
    ∀ (ys : List LineItem),
      (ys.map (fun y => g y + h y)).sum = (ys.map g).sum + (ys.map h).sum := by
  intro ys
  induction ys with
  | nil => simp
  | cons y ys ih =>
    simp only [List.map_cons, List.sum_cons, ih]
    ring

/-- Exchange of a double list sum. -/
theorem list_sum_swap (f : Json → LineItem → ℚ) :
    ∀ (xs : List Json) (ys : List LineItem),
      (xs.map (fun x => (ys.map (f x)).sum)).sum =
        (ys.map (fun y => (xs.map (fun x => f x y)).sum)).sum := by
  intro xs
  induction xs with
  | nil => intro ys; simp
  | cons x xs ih =>
    intro ys
    simp only [List.map_cons, List.sum_cons, ih]
    rw [← sum_map_add_split]

/-- Summing an indicator over a list without the key gives zero. -/
theorem sum_ite_zero_of_not_mem (x : Json) (amt : ℚ) :
    ∀ (l : List Json), x ∉ l →
      (l.map (fun a => if x = a then amt else 0)).sum = 0 := by
  intro l
  induction l with
  | nil => intro _; simp
  | cons a rest ih =>
    intro hx
    have hxa : x ≠ a := fun h => hx (h ▸ List.mem_cons_self a rest)
    have hxr : x ∉ rest := fun h => hx (List.mem_cons_of_mem a h)
    simp [hxa, ih hxr]

/-- Summing an indicator over a duplicate-free list picks the key once. -/
theorem sum_ite_eq_mem (x : Json) (amt : ℚ) :
    ∀ (l : List Json), l.Nodup →
      (l.map (fun a => if x = a then amt else 0)).sum =
        if x ∈ l then amt else 0 := by
  intro l
  induction l with
  | nil => intro _; simp
  | cons a rest ih =>
    intro h
    rw [List.nodup_cons] at h
    obtain ⟨ha, hrest⟩ := h
    by_cases hx : x = a
    · subst hx
      rw [List.map_cons, List.sum_cons, if_pos rfl,
        sum_ite_zero_of_not_mem x amt rest ha, if_pos (List.mem_cons_self x rest)]
      ring
    · simp only [List.map_cons, List.sum_cons, if_neg hx, ih hrest]
      simp [List.mem_cons, hx]

/-- The per-entry identity: summing this entry's per-account line amounts
    over its (well-formed) account list counts each truthy-named line
    exactly once. -/
theorem entry_account_partition (lines : List LineItem) (aa : List Json)
    (amt : LineItem → ℚ) (h1 : aa.Nodup) (h2 : ∀ a ∈ aa, pyTruthy a = true)
    (h3 : ∀ l ∈ lines, pyTruthy l.account_name = true → l.account_name ∈ aa) :
    (aa.map (fun a =>
      (lines.map (fun l => if l.account_name = a then amt l else 0)).sum)).sum =
      (lines.map (fun l =>
        if pyTruthy l.account_name = true then amt l else 0)).sum := by
  rw [list_sum_swap (fun a l => if l.account_name = a then amt l else 0)]
  apply congrArg
  apply List.map_congr_left
  intro l hl
  rw [sum_ite_eq_mem l.account_name (amt l) aa h1]
  by_cases ht : pyTruthy l.account_name = true
  · rw [if_pos (h3 l hl ht), if_pos ht]
  · rw [if_neg ?_, if_neg ht]
    intro hmem
    exact ht (h2 l.account_name hmem)

/-- One entry's account loop adds its per-account line sums to the dict
    total, for any bucket projection satisfying the update law. -/
theorem entryAccountsFold_sum (proj : AccountBucket → ℚ) (amt : LineItem → ℚ)
    (e : Entry)
    (hproj : ∀ a b, proj (accountEntryUpdate e a b) =
      proj b + (e.line_items.map (fun l => if l.account_name = a then amt l else 0)).sum)
    (h0 : proj ⟨0, 0, 0⟩ = 0) :
    ∀ (accts : List Json) (acc : List (Json × AccountBucket)),
      ((accts.foldl (fun acc a => assocBump acc a (accountEntryUpdate e a)) acc).map
        (fun kv => proj kv.2)).sum =
        (acc.map (fun kv => proj kv.2)).sum +
        (accts.map (fun a =>
          (e.line_items.map (fun l => if l.account_name = a then amt l else 0)).sum)).sum := by
  intro accts
  induction accts with
  | nil => intro acc; simp
  | cons a as ih =>
    intro acc
    rw [List.foldl_cons, ih, assocBump_projSum proj a _ _ (hproj a) h0]
    simp only [List.map_cons, List.sum_cons]
    ring

/-- The whole account-analysis loop: starting from any dict, the projected
    total grows by the truthy-account line sums of the processed entries. -/
theorem analyze_accounts_loop_sum (proj : AccountBucket → ℚ) (amt : LineItem → ℚ)
    (hproj : ∀ (e : Entry) (a : Json) (b : AccountBucket),
      proj (accountEntryUpdate e a b) =
        proj b + (e.line_items.map (fun l => if l.account_name = a then amt l else 0)).sum)
    (h0 : proj ⟨0, 0, 0⟩ = 0) :
    ∀ (entries : List Entry) (acc : List (Json × AccountBucket)),
      (∀ e ∈ entries, EntryAccountsWellFormed e) →
      ((entries.foldl (fun acc e =>
          e.accounts_affected.foldl
            (fun acc a => assocBump acc a (accountEntryUpdate e a)) acc) acc).map
        (fun kv => proj kv.2)).sum =
        (acc.map (fun kv => proj kv.2)).sum +
        (entries.map (fun e =>
          (e.line_items.map (fun l =>
            if pyTruthy l.account_name = true then amt l else 0)).sum)).sum := by
  intro entries
  induction entries with
  | nil => intro acc _; simp
  | cons e es ih =>
    intro acc hwf
    rw [List.foldl_cons,
      ih _ (fun e' he' => hwf e' (List.mem_cons_of_mem e he')),
      entryAccountsFold_sum proj amt e (hproj e) h0]
    obtain ⟨h1, h2, h3⟩ := hwf e (List.mem_cons_self e es)
    rw [entry_account_partition e.line_items e.accounts_affected amt h1 h2 h3]
    simp only [List.map_cons, List.sum_cons]
    ring

/-- C1 (amended): summing per-account total debits (resp. credits) across
    all buckets of the account breakdown equals the sum, over all entries
    and all of their lines that carry a truthy (non-null, non-empty)
    account name, of the line's debit (resp. credit) amount — with no
    double counting even when one entry posts to several distinct
    accounts.  Lines without an account name are excluded from the account
    breakdown (which is where the original claim fails). -/
theorem account_breakdown_sums :
    ∀ (entries : List Entry), (∀ e ∈ entries, EntryAccountsWellFormed e) →
      bucketDebitsSum (analyze_accounts_in_entries entries) =
        truthyAccountDebitsSum entries ∧
      bucketCreditsSum (analyze_accounts_in_entries entries) =
        truthyAccountCreditsSum entries := by
  intro entries hwf
  constructor
  · have := analyze_accounts_loop_sum AccountBucket.total_debits
      LineItem.debit_amount ?hproj rfl entries [] hwf
    case hproj =>
      intro e a b
      unfold accountEntryUpdate
      rw [accountLineFold_debits]
    simpa [analyze_accounts_in_entries, bucketDebitsSum, truthyAccountDebitsSum]
      using this
  · have := analyze_accounts_loop_sum AccountBucket.total_credits
      LineItem.credit_amount ?hproj rfl entries [] hwf
    case hproj =>
      intro e a b
      unfold accountEntryUpdate
      rw [accountLineFold_credits]
    simpa [analyze_accounts_in_entries, bucketCreditsSum, truthyAccountCreditsSum]
      using this

/-- Witness for `account_breakdown_sums` on a normalized two-line entry. -/
theorem account_breakdown_sums_witness :
    ∃ es, process_journal_entries [sampleRawEntry] = .ok es ∧
      (bucketDebitsSum (analyze_accounts_in_entries es) =
        truthyAccountDebitsSum es ∧
       bucketCreditsSum (analyze_accounts_in_entries es) =
        truthyAccountCreditsSum es) := by
  cases h : process_journal_entries [sampleRawEntry] with
  | error msg =>
    have hok : (process_journal_entries [sampleRawEntry]).isOk = true := by decide
    rw [h] at hok
    simp [Except.isOk, Except.toBool] at hok
  | ok es =>
    refine ⟨es, rfl, account_breakdown_sums es ?_⟩
    intro e he
    unfold process_journal_entries at h
    rw [List.mapM_cons] at h
    rw [exceptBind_ok] at h
    obtain ⟨e1, he1, h⟩ := h
    rw [List.mapM_nil] at h
    simp only [pure, Except.pure, exceptBind_ok, Except.ok.injEq] at h
    obtain ⟨es1, hes1, h⟩ := h
    rw [← h] at he
    rw [← hes1] at he
    simp only [List.mem_singleton] at he
    subst he
    exact extract_ok_wellformed he1

/-- C1 (counterexample to the claim as stated): the normalized entry of a
    raw entry whose debit line carries no account reference contributes `5`
    to the entry-granularity line-debit sum but `0` to the account
    breakdown, so the two sums differ. -/
theorem account_breakdown_total_counterexample :
    process_journal_entries [sampleRawEntryNoAccount] = .ok [counterexampleEntry] ∧
    bucketDebitsSum (analyze_accounts_in_entries [counterexampleEntry]) = 0 ∧
    entriesLineDebitsSum [counterexampleEntry] = 5 ∧
    bucketDebitsSum (analyze_accounts_in_entries [counterexampleEntry]) ≠
      entriesLineDebitsSum [counterexampleEntry] := by
  have h05 : (0 : ℚ) + 5 = 5 := by norm_num
  have h00 : (0 : ℚ) + 0 = 0 := by norm_num
  refine ⟨?_, ?_, ?_, ?_⟩
  · have haux : process_journal_entries [sampleRawEntryNoAccount] =
        .ok [{ counterexampleEntry with
                total_debits := 0 + 5, total_credits := 0 + 0 }] := rfl
    rw [haux, h05, h00]
    rfl
  · rfl
  · simp [entriesLineDebitsSum, counterexampleEntry, counterexampleLine]
  · have hb : bucketDebitsSum (analyze_accounts_in_entries [counterexampleEntry]) = 0 := rfl
    have hl : entriesLineDebitsSum [counterexampleEntry] = 5 := by
      simp [entriesLineDebitsSum, counterexampleEntry, counterexampleLine]
    rw [hb, hl]
    norm_num

/-!
## Lemmas: by-property filter
-/

/-- The sequential flag assignments of the filter loop are equivalent to a
    single disjunction over the supplied filters. -/
theorem includeEntry_iff (pc loc cls cust : Option String) (e : Entry) :
    includeEntry pc loc cls cust e = true ↔
      (¬(optTruthy pc = true ∨ optTruthy loc = true ∨ optTruthy cls = true ∨
          optTruthy cust = true) ∨
       (optTruthy pc = true ∧ (pc.getD "") ∈ e.property_codes_detected) ∨
       (optTruthy loc = true ∧ Json.str (loc.getD "") ∈ e.locations_mentioned) ∨
       (optTruthy cls = true ∧ Json.str (cls.getD "") ∈ e.classes_mentioned) ∨
       (optTruthy cust = true ∧ Json.str (cust.getD "") ∈ e.customers_mentioned) ∨
       (optTruthy pc = true ∧
         strContains (pyUpperStr (filterAllText e)) (pyUpperStr (pc.getD "")) = true)) := by
  unfold includeEntry
  split_ifs <;> simp_all

/-- C3: the by-property filter uses OR semantics — an entry is included iff
    ANY supplied filter matches (property code by membership in the
    detected codes or case-insensitive substring of memo plus line
    descriptions; location, class and customer by exact membership in the
    corresponding mention set); with no filters supplied every entry is
    included; and filtering `E1` (location `"North"`), `E2` (class
    `"Retail"`), `E3` (neither) by location `"North"` and class `"Retail"`
    returns exactly `[E1, E2]`. -/
theorem filter_or_semantics :
    (∀ entries : List Entry,
      get_journal_entries_by_property entries ⟨none, none, none, none⟩ = entries) ∧
    (∀ (entries : List Entry) (pc loc cls cust : Option String) (e : Entry),
      e ∈ get_journal_entries_by_property entries ⟨pc, loc, cls, cust⟩ ↔
        e ∈ entries ∧
        (¬(optTruthy pc = true ∨ optTruthy loc = true ∨ optTruthy cls = true ∨
            optTruthy cust = true) ∨
         (optTruthy pc = true ∧ (pc.getD "") ∈ e.property_codes_detected) ∨
         (optTruthy loc = true ∧ Json.str (loc.getD "") ∈ e.locations_mentioned) ∨
         (optTruthy cls = true ∧ Json.str (cls.getD "") ∈ e.classes_mentioned) ∨
         (optTruthy cust = true ∧ Json.str (cust.getD "") ∈ e.customers_mentioned) ∨
         (optTruthy pc = true ∧
           strContains (pyUpperStr (filterAllText e)) (pyUpperStr (pc.getD "")) = true))) ∧
    get_journal_entries_by_property [entryE1, entryE2, entryE3]
      ⟨none, some "North", some "Retail", none⟩ = [entryE1, entryE2] := by
  refine ⟨?_, ?_, ?_⟩
  · intro entries
    unfold get_journal_entries_by_property
    apply List.filter_eq_self.mpr
    intro e he
    simp [includeEntry, optTruthy]
  · intro entries pc loc cls cust e
    unfold get_journal_entries_by_property
    rw [List.mem_filter, includeEntry_iff]
  · rfl

/-!
## Lemmas: query composer, processing loop, reference extractor
-/

/-- C5: the property-mapping recommendation follows the strict top-down
    dimension priority — nonzero locations win, else nonzero classes, else
    nonzero customers, else setup required — independent of magnitude; with
    0 locations, 3 classes and 50 customers the recommended approach names
    Classes, not Customers. -/
theorem mapping_recommendation_priority :
    (∀ (locR clsR custR : Except String SourceFetch),
      ((get_property_mapping locR clsR custR).locations.count > 0 →
        (get_property_mapping locR clsR custR).recommended_approach =
          "Locations (Primary)") ∧
      ((get_property_mapping locR clsR custR).locations.count = 0 →
        (get_property_mapping locR clsR custR).classes.count > 0 →
        (get_property_mapping locR clsR custR).recommended_approach =
          "Classes (Primary)") ∧
      ((get_property_mapping locR clsR custR).locations.count = 0 →
        (get_property_mapping locR clsR custR).classes.count = 0 →
        (get_property_mapping locR clsR custR).customers.count > 0 →
        (get_property_mapping locR clsR custR).recommended_approach =
          "Customers (Primary)") ∧
      ((get_property_mapping locR clsR custR).locations.count = 0 →
        (get_property_mapping locR clsR custR).classes.count = 0 →
        (get_property_mapping locR clsR custR).customers.count = 0 →
        (get_property_mapping locR clsR custR).recommended_approach =
          "Setup Required")) ∧
    (get_property_mapping (.ok ⟨true, [], none⟩)
        (.ok ⟨true, List.replicate 3 (.str "Class"), none⟩)
        (.ok ⟨true, List.replicate 50 (.str "Unit"), none⟩)).recommended_approach =
      "Classes (Primary)" := by
  constructor
  · intro locR clsR custR
    refine ⟨?_, ?_, ?_, ?_⟩
    · intro h1
      simp only [get_property_mapping, mkSourceView] at h1 ⊢
      simp [h1]
    · intro h1 h2
      simp only [get_property_mapping, mkSourceView] at h1 h2 ⊢
      simp [h1, h2]
    · intro h1 h2 h3
      simp only [get_property_mapping, mkSourceView] at h1 h2 h3 ⊢
      simp [h1, h2, h3]
    · intro h1 h2 h3
      simp only [get_property_mapping, mkSourceView] at h1 h2 h3 ⊢
      simp [h1, h2, h3]
  · rfl

/-- Witness for `mapping_recommendation_priority` at 0/3/50. -/
theorem mapping_recommendation_priority_witness :
    (get_property_mapping (.ok ⟨true, [], none⟩)
        (.ok ⟨true, List.replicate 3 (.str "Class"), none⟩)
        (.ok ⟨true, List.replicate 50 (.str "Unit"), none⟩)).locations.count = 0 ∧
    (get_property_mapping (.ok ⟨true, [], none⟩)
        (.ok ⟨true, List.replicate 3 (.str "Class"), none⟩)
        (.ok ⟨true, List.replicate 50 (.str "Unit"), none⟩)).classes.count > 0 ∧
    (get_property_mapping (.ok ⟨true, [], none⟩)
        (.ok ⟨true, List.replicate 3 (.str "Class"), none⟩)
        (.ok ⟨true, List.replicate 50 (.str "Unit"), none⟩)).recommended_approach =
      "Classes (Primary)" :=
  ⟨rfl, by decide,
    ((mapping_recommendation_priority.1 _ _ _).2.1) rfl (by decide)⟩

/-- C6 (amended): a failed classes fetch degrades only the classes source
    to `available: false, count: 0, items: []` with the generic
    `"❌ Not available"` status and an empty `error_message` (the specific
    failure reason is not carried into the response); the other two sources
    and the overall response are unaffected and the recommendation derives
    from the two surviving sources. -/
theorem mapping_failure_isolation :
    ∀ (lr ur : SourceFetch) (msg : String),
      (get_property_mapping (.ok lr) (.error msg) (.ok ur)).classes.available = false ∧
      (get_property_mapping (.ok lr) (.error msg) (.ok ur)).classes.count = 0 ∧
      (get_property_mapping (.ok lr) (.error msg) (.ok ur)).classes.items = [] ∧
      (get_property_mapping (.ok lr) (.error msg) (.ok ur)).classes.status =
        "❌ Not available" ∧
      (get_property_mapping (.ok lr) (.error msg) (.ok ur)).classes.error_message = "" ∧
      (get_property_mapping (.ok lr) (.error msg) (.ok ur)).locations.available =
        lr.success ∧
      (get_property_mapping (.ok lr) (.error msg) (.ok ur)).locations.count =
        lr.items.length ∧
      (get_property_mapping (.ok lr) (.error msg) (.ok ur)).locations.items =
        lr.items ∧
      (get_property_mapping (.ok lr) (.error msg) (.ok ur)).customers.available =
        ur.success ∧
      (get_property_mapping (.ok lr) (.error msg) (.ok ur)).customers.count =
        ur.items.length ∧
      (get_property_mapping (.ok lr) (.error msg) (.ok ur)).customers.items =
        ur.items ∧
      (get_property_mapping (.ok lr) (.error msg) (.ok ur)).recommended_approach =
        (if 0 < lr.items.length then "Locations (Primary)"
         else if 0 < ur.items.length then "Customers (Primary)"
         else "Setup Required") := by
  intro lr ur msg
  refine ⟨rfl, rfl, rfl, rfl, rfl, rfl, rfl, rfl, rfl, rfl, rfl, ?_⟩
  simp only [get_property_mapping, mkSourceView, resolveFetch, degradedFetch]
  split_ifs <;> simp_all

/-- C6 (counterexample to the claim as stated): when the classes fetch
    fails with reason `"classes fetch failed: connection timeout"`, the
    degraded classes block records an empty `error_message` — the
    human-readable failure reason is not recorded in the response. -/
theorem mapping_failure_reason_not_recorded :
    (get_property_mapping (.ok ⟨true, [.str "Main"], none⟩)
        (.error "classes fetch failed: connection timeout")
        (.ok ⟨true, [], none⟩)).classes.error_message = "" ∧
    (get_property_mapping (.ok ⟨true, [.str "Main"], none⟩)
        (.error "classes fetch failed: connection timeout")
        (.ok ⟨true, [], none⟩)).classes.available = false :=
  ⟨rfl, rfl⟩

/-- C8 (amended): a malformed entry (unparseable header) aborts the whole
    processing loop — the request fails with the raised error, no entry
    list is produced, and remaining entries are not processed; there is no
    per-entry skip list. -/
theorem malformed_entry_aborts_processing :
    ∀ (js : List Json) (j : Json) (msg : String), j ∈ js →
      extract_all_journal_entry_fields j = .error msg →
      ∀ res, process_journal_entries js ≠ .ok res := by
  intro js
  induction js with
  | nil =>
    intro j msg hj
    exact absurd hj (List.not_mem_nil j)
  | cons a rest ih =>
    intro j msg hj herr res hok
    unfold process_journal_entries at hok
    rw [List.mapM_cons] at hok
    rw [exceptBind_ok] at hok
    obtain ⟨b, hb, hok⟩ := hok
    rcases List.mem_cons.1 hj with rfl | hj'
    · rw [herr] at hb
      exact Except.noConfusion hb
    · rw [exceptBind_ok] at hok
      obtain ⟨bs, hbs, _⟩ := hok
      exact ih j msg hj' herr bs hbs

/-- Witness for `malformed_entry_aborts_processing` on a concrete batch. -/
theorem malformed_entry_aborts_processing_witness :
    sampleRawEntryBadHeader ∈ [sampleRawEntryBadHeader, sampleRawEntry] ∧
    extract_all_journal_entry_fields sampleRawEntryBadHeader =
      .error "ValueError: could not convert string to float: NOT A NUMBER" ∧
    ∀ res, process_journal_entries [sampleRawEntryBadHeader, sampleRawEntry] ≠
      .ok res :=
  ⟨List.mem_cons_self _ _, rfl,
    malformed_entry_aborts_processing _ _ _ (List.mem_cons_self _ _) rfl⟩

/-- C8 (counterexample to the claim as stated): with a malformed first
    entry, the whole fetch errors — the well-formed second entry is not
    processed and no skipped-record list is produced. -/
theorem malformed_entry_aborts_processing_counterexample :
    process_journal_entries [sampleRawEntryBadHeader, sampleRawEntry] =
      .error "ValueError: could not convert string to float: NOT A NUMBER" := rfl

/-- C9 (counterexample to the claim as stated): an empty raw reference
    yields `None` — a missing value — not an all-null reference dict. -/
theorem ref_extractor_counterexample :
    extract_ref_data (.obj []) = .ok none ∧
    extract_ref_data (.obj []) ≠ .ok (some ⟨.null, .null, .null⟩) := by
  constructor
  · rfl
  · intro hcon
    have h0 : extract_ref_data (.obj []) = .ok none := rfl
    rw [h0] at hcon
    exact Option.noConfusion (Except.ok.inj hcon)

/-- C9 (amended): the reference extractor returns `None` without raising on
    any falsy input (absent or empty reference), and copies `value`, `name`
    and `type` through verbatim (absent keys become null) on any non-empty
    dict input. -/
theorem ref_extractor_amended :
    (∀ j : Json, pyTruthy j = false → extract_ref_data j = .ok none) ∧
    (∀ kvs : List (String × Json), kvs ≠ [] →
      extract_ref_data (.obj kvs) = .ok (some
        ⟨(kvs.lookup "value").getD .null, (kvs.lookup "name").getD .null,
         (kvs.lookup "type").getD .null⟩)) := by
  constructor
  · intro j hj
    unfold extract_ref_data
    rw [if_neg]
    simp [hj]
  · intro kvs hkvs
    unfold extract_ref_data
    rw [if_pos]
    · rfl
    · simp [pyTruthy, hkvs]

/-- Witness for `ref_extractor_amended` on falsy and dict inputs. -/
theorem ref_extractor_amended_witness :
    extract_ref_data Json.null = .ok none ∧
    extract_ref_data (.obj [("value", .str "7"), ("name", .str "Cash")]) =
      .ok (some ⟨.str "7", .str "Cash", .null⟩) := by
  constructor
  · exact ref_extractor_amended.1 Json.null rfl
  · exact ref_extractor_amended.2 [("value", .str "7"), ("name", .str "Cash")]
      (by simp)
